import Mathlib

/-!
Shallow embedding of `src/extract_bill_information.py` (LobeElectricity).

The Python program scans PDF bills (modelled here as a list of page-text
strings), dispatches on a provider marker found in the page-1 text, extracts
a raw string-valued record, sanitizes it into a typed record, and aggregates
the sanitized records in a two-level map keyed by (CUPS, bill id).

Modelling conventions:
- Python strings are Lean `String`s; most parsing works on `List Char`.
- Python `None`-able fields are `Option`s; the raw record's `P1`..`P6`
  entries model dict keys that may be absent (`none` = key not in the dict;
  the extractors only ever store non-`None` strings under those keys).
- Python floats produced by `locale.atof` are modelled as exact rationals;
  in the program's domain (currency values with two decimals, small
  magnitudes) distinct decimal literals denote distinct doubles, so equality
  of parsed amounts coincides with the float equality used by the source.
- Exceptions that escape a function (strptime failures, `.group` calls on a
  failed match, page-index errors, `locale.atof` on a malformed string) are
  modelled as `Except.error ()`; gracefully handled failures return
  `Except.ok none` exactly where the source returns `None`.
- The regular expressions of the source are compiled by hand into
  deterministic parsers. For each of them the backtracking of the Python
  `re` engine is resolvable statically: every alternative or optional piece
  either starts with a character class disjoint from its continuation or is
  followed by a continuation that fails on every shorter retry, so the
  greedy first choice is the only candidate. Comments at each parser record
  the argument.
-/

namespace LobeElectricity

/-- Is `n` a contiguous sublist of `l`? -/
def infixOfL (n : List Char) : List Char → Bool
  | [] => n.isEmpty
  | c :: t => n.isPrefixOf (c :: t) || infixOfL n t

/-- Python `needle in hay` substring test. -/
def substrOf (needle hay : String) : Bool :=
  infixOfL needle.data hay.data

/-- Python `s.split(c)` for a one-character separator (every separator used
by the source is a single character). -/
def splitOnChar (c : Char) : List Char → List (List Char)
  | [] => [[]]
  | x :: r =>
    let rest := splitOnChar c r
    if x = c then [] :: rest
    else
      match rest with
      | h :: t => (x :: h) :: t
      | [] => [[x]]

/-- Python `s.split(c)`. -/
def pySplit (s : String) (c : Char) : List String :=
  (splitOnChar c s.data).map String.mk

/-- Python `text.split('\n')`. -/
def splitLines (s : String) : List String :=
  pySplit s '\n'

/-- Python `s.startswith(pre)`. -/
def pyStartsWith (s pre : String) : Bool :=
  pre.data.isPrefixOf s.data

/-- Python `c.join(parts)`. -/
def joinWith (c : Char) : List (List Char) → List Char
  | [] => []
  | [x] => x
  | x :: xs => x ++ c :: joinWith c xs

/-- Python `c.join(parts)` on strings. -/
def pyJoin (c : Char) (l : List String) : String :=
  String.mk (joinWith c (l.map String.data))

/-- Python `xs[-1]` on a split result (split never returns an empty list). -/
def lastD (l : List String) (d : String) : String :=
  l.getLastD d

/-- ASCII decimal digit, the `\d` of the source's patterns on its inputs. -/
def isD (c : Char) : Bool :=
  c.isDigit

/-- Digit character value. -/
def dval (c : Char) : Nat :=
  c.toNat - 48

/-- Numeric value of a digit string (most significant first). -/
def digitsToNat (l : List Char) : Nat :=
  l.foldl (fun n c => n * 10 + dval c) 0

/-- Rest of the input after the greedy `(?:\.\d{3})*` loop: consume `.` plus
exactly three digits as long as that shape is present.  (If a fourth digit
follows a group the regex engine still consumes the group and fails later at
the `,`/` ` continuation; retrying with fewer groups leaves a `.` where the
continuation expects `,` or ` `, so it fails the same way — consuming
greedily is faithful.) -/
def groupsRest : List Char → List Char
  | [] => []
  | c :: r =>
    match r with
    | a :: b :: d :: r2 =>
      if c = '.' && isD a && isD b && isD d then groupsRest r2 else c :: r
    | _ => c :: r

/-- Rest of the input after `(?:\d{1,3}(?:\.\d{3})*|\d+)`, in every context
of the source where the continuation starts with `,`, ` ` or the end of the
token.  Backtracking resolution: if the leading digit run has length > 3,
every `\d{1,3}` choice is followed by a digit (never by `.`, `,` or ` `), so
only the `\d+` branch can proceed, and shortening `\d+` also leaves a digit
under the continuation; if the run has length ≤ 3, the `\d+` branch consumes
exactly the same run, and the group loop of the first branch is handled by
`groupsRest`. -/
def numRest (l : List Char) : Option (List Char) :=
  if (l.takeWhile isD).isEmpty then none
  else if (l.takeWhile isD).length ≤ 3 then some (groupsRest (l.dropWhile isD))
  else some (l.dropWhile isD)

/-- Rest after the unsigned part of `AMOUNT_PATTERN`
(`(?:\d{1,3}(?:\.\d{3})*|\d+),\d{2} ?€`). -/
def amountBodyRest (l : List Char) : Option (List Char) :=
  match numRest l with
  | none => none
  | some r =>
    match r with
    | c :: a :: b :: r2 =>
      if c = ',' && isD a && isD b then
        match r2 with
        | x :: y :: r3 =>
          if x = ' ' && y = '€' then some r3
          else if x = '€' then some (y :: r3)
          else none
        | [x] => if x = '€' then some [] else none
        | [] => none
      else none
    | _ => none

/-- Rest after a match of `AMOUNT_PATTERN` = `[+-]?(?:\d{1,3}(?:\.\d{3})*|\d+),\d{2} ?€`
anchored at the head of the input (`none` when the pattern does not match
here).  A `+`/`-` head is consumed; retrying without the sign cannot succeed
because the body then starts at the sign character, which is not a digit. -/
def amountRest (l : List Char) : Option (List Char) :=
  match l with
  | c :: r => if c = '+' || c = '-' then amountBodyRest r else amountBodyRest (c :: r)
  | [] => none

theorem groupsRest_len (l : List Char) : (groupsRest l).length ≤ l.length := by
  have aux : ∀ n (l : List Char), l.length ≤ n → (groupsRest l).length ≤ l.length := by
    intro n
    induction n with
    | zero =>
      intro l hl
      have hnil : l = [] := List.eq_nil_of_length_eq_zero (Nat.le_zero.mp hl)
      subst hnil
      simp [groupsRest]
    | succ n ih =>
      intro l hl
      unfold groupsRest
      split
      · exact Nat.le_refl _
      · split
        · split
          · refine le_trans (ih _ ?_) ?_
            · simp only [List.length_cons] at hl
              omega
            · simp only [List.length_cons]
              omega
          · exact Nat.le_refl _
        · exact Nat.le_refl _
  exact aux l.length l (Nat.le_refl _)

theorem takeWhile_dropWhile_length (p : Char → Bool) (l : List Char) :
    (l.takeWhile p).length + (l.dropWhile p).length = l.length := by
  conv_rhs => rw [← List.takeWhile_append_dropWhile (p := p) (l := l)]
  rw [List.length_append]

theorem numRest_len {l r : List Char} (h : numRest l = some r) :
    r.length < l.length := by
  unfold numRest at h
  by_cases hds : (l.takeWhile isD).isEmpty
  · simp [hds] at h
  · have hlen := takeWhile_dropWhile_length isD l
    have hpos : 0 < (l.takeWhile isD).length := by
      cases hta : l.takeWhile isD with
      | nil => rw [hta] at hds; simp at hds
      | cons x xs => simp [hta]
    simp only [hds, Bool.false_eq_true, if_false] at h
    split at h
    · have hg := groupsRest_len (l.dropWhile isD)
      cases h; omega
    · cases h; omega

theorem amountBodyRest_len {l r : List Char} (h : amountBodyRest l = some r) :
    r.length < l.length := by
  unfold amountBodyRest at h
  cases hn : numRest l with
  | none => rw [hn] at h; cases h
  | some r1 =>
    have h1 := numRest_len hn
    rw [hn] at h
    rcases r1 with _ | ⟨c, _ | ⟨a, _ | ⟨b, r2⟩⟩⟩
    · cases h
    · cases h
    · cases h
    · simp only at h
      split at h
      · rcases r2 with _ | ⟨x, _ | ⟨y, r3⟩⟩
        · cases h
        · simp only at h
          split at h
          · cases h
            simp only [List.length_cons] at h1 ⊢
            omega
          · cases h
        · simp only at h
          split at h
          · cases h
            simp only [List.length_cons] at h1 ⊢
            omega
          · split at h
            · cases h
              simp only [List.length_cons] at h1 ⊢
              omega
            · cases h
      · cases h

theorem amountRest_len {l r : List Char} (h : amountRest l = some r) :
    r.length < l.length := by
  unfold amountRest at h
  rcases l with _ | ⟨c, t⟩
  · cases h
  · simp only at h
    split at h
    · exact Nat.lt_trans (amountBodyRest_len h) (Nat.lt_succ_self _)
    · exact amountBodyRest_len h

/-- Python `re.findall` with a matcher `m` that, at a given position, either
fails or consumes a prefix: scan left to right, emit each non-overlapping
match, resume after it, advance one character on failure.  The fuel argument
makes the recursion structural; every matcher used below consumes at least
one character on success, so fuel `l.length` never runs out
(`scanAllF_fuel` below). -/
def scanAllF (m : List Char → Option (List Char)) : Nat → List Char → List (List Char)
  | 0, _ => []
  | fuel + 1, l =>
    match l with
    | [] => []
    | c :: t =>
      match m (c :: t) with
      | some r => (c :: t).take ((c :: t).length - r.length) :: scanAllF m fuel r
      | none => scanAllF m fuel t

/-- With a shrinking matcher, any fuel of at least the input length gives the
same scan result: the fuel encoding is faithful to the unbounded scan. -/
theorem scanAllF_fuel (m : List Char → Option (List Char))
    (hm : ∀ l r, m l = some r → r.length < l.length) :
    ∀ f1 f2 l, l.length ≤ f1 → l.length ≤ f2 →
      scanAllF m f1 l = scanAllF m f2 l := by
  intro f1
  induction f1 with
  | zero =>
    intro f2 l h1 h2
    have hnil : l = [] := List.eq_nil_of_length_eq_zero (Nat.le_zero.mp h1)
    subst hnil
    cases f2 <;> simp [scanAllF]
  | succ f1 ih =>
    intro f2 l h1 h2
    cases l with
    | nil => cases f2 <;> simp [scanAllF]
    | cons c t =>
      cases f2 with
      | zero => simp at h2
      | succ f2 =>
        simp only [scanAllF]
        cases hmc : m (c :: t) with
        | some r =>
          have hr := hm _ _ hmc
          simp only [List.length_cons] at h1 h2 hr
          dsimp only
          rw [ih f2 r (by omega) (by omega)]
        | none =>
          simp only [List.length_cons] at h1 h2
          dsimp only
          rw [ih f2 t (by omega) (by omega)]

/-- Every token emitted by the scan is the prefix consumed by a successful
run of the matcher on some input position. -/
theorem scanAllF_tokens (m : List Char → Option (List Char)) :
    ∀ fuel l t, t ∈ scanAllF m fuel l →
      ∃ u r, m u = some r ∧ t = u.take (u.length - r.length) := by
  intro fuel
  induction fuel with
  | zero => intro l t ht; simp [scanAllF] at ht
  | succ fuel ih =>
    intro l t ht
    cases l with
    | nil => simp [scanAllF] at ht
    | cons c u =>
      simp only [scanAllF] at ht
      cases hmc : m (c :: u) with
      | some r =>
        rw [hmc] at ht
        simp only [List.mem_cons] at ht
        cases ht with
        | inl h => exact ⟨c :: u, r, hmc, h⟩
        | inr h => exact ih r t h
      | none =>
        rw [hmc] at ht
        exact ih u t ht

/-- `AMOUNT_PATTERN.findall(s)`: the well-formed currency tokens of `s`. -/
def amountFindall (s : String) : List (List Char) :=
  scanAllF amountRest s.data.length s.data

/-- Python `str.strip()` on a character list (ASCII whitespace; the source
only ever strips spaces produced by its own splits). -/
def stripChars (l : List Char) : List Char :=
  ((l.dropWhile Char.isWhitespace).reverse.dropWhile Char.isWhitespace).reverse

/-- Python `str.strip()`. -/
def pyStrip (s : String) : String :=
  String.mk (stripChars s.data)

/-- `locale.delocalize` for the program's `es_ES`-style numeric locale:
remove every thousands separator `.`, then turn the decimal comma into a
point. -/
def delocalizeChars (l : List Char) : List Char :=
  (l.filter (fun c => c ≠ '.')).map (fun c => if c = ',' then '.' else c)

/-- The decimal value `ip.fp` as an exact rational. -/
def decValue (neg : Bool) (ip fp : List Char) : Rat :=
  (if neg then -1 else 1) *
    ((digitsToNat ip : Rat) + (digitsToNat fp : Rat) / ((10 : Rat) ^ fp.length))

/-- Fractional part of the Python `float()` grammar: `ip` is the integer
digit run, `r1` what follows it. -/
def floatFrac (neg : Bool) (ip r1 : List Char) : Option Rat :=
  match r1 with
  | [] => if ip.isEmpty then none else some (decValue neg ip [])
  | d :: r2 =>
    if d = '.' then
      if (r2.dropWhile isD).isEmpty && !(ip.isEmpty && (r2.takeWhile isD).isEmpty) then
        some (decValue neg ip (r2.takeWhile isD))
      else none
    else none

/-- Python `float()` on an already-delocalized string: optional sign, then
digits with an optional fractional part, nothing else.  (The source never
feeds `float` exponent notation, `inf`/`nan` or inner whitespace, so those
branches of the CPython grammar are omitted.) -/
def floatOfChars (l : List Char) : Option Rat :=
  match l with
  | [] => none
  | c :: r =>
    if c = '+' || c = '-' then
      floatFrac (c = '-') (r.takeWhile isD) (r.dropWhile isD)
    else
      floatFrac false ((c :: r).takeWhile isD) ((c :: r).dropWhile isD)

/-- Defining equation of `floatOfChars` on a non-empty list. -/
theorem floatOfChars_cons (c : Char) (r : List Char) :
    floatOfChars (c :: r) =
      if c = '+' || c = '-' then
        floatFrac (c = '-') (r.takeWhile isD) (r.dropWhile isD)
      else
        floatFrac false ((c :: r).takeWhile isD) ((c :: r).dropWhile isD) := rfl

/-- `locale.atof` on a character list: strip, delocalize, run the float
grammar. (CPython strips inside `float`; `delocalize` does not touch
whitespace, so stripping first is equivalent.) -/
def atofChars (l : List Char) : Option Rat :=
  floatOfChars (stripChars (delocalizeChars l))

/-- `locale.atof(s)` as used by the source. -/
def atof (s : String) : Option Rat :=
  atofChars s.data

/-- Core of `_extract_billed_amount`: run `AMOUNT_PATTERN.findall` on the
captured line; unless there is exactly one match return `None`; otherwise
drop the `€` sign, strip, and convert with `locale.atof` (which on a token
of the pattern always succeeds). -/
def extract_billed_amount (s : String) : Option Rat :=
  match amountFindall s with
  | [t] => atofChars (t.filter (fun c => c ≠ '€'))
  | _ => none

/-- Modelled from the spec: rest after one currency token as §4.3 words it —
"optional sign, thousands grouped by period, comma decimal separator, two
decimal digits, optional trailing currency symbol" — i.e. the code's token
with the trailing `€` (optionally preceded by a space) optional rather than
mandatory. -/
def specAmountBodyRest (l : List Char) : Option (List Char) :=
  match numRest l with
  | none => none
  | some r =>
    match r with
    | c :: a :: b :: r2 =>
      if c = ',' && isD a && isD b then
        match r2 with
        | x :: y :: r3 =>
          if x = ' ' && y = '€' then some r3
          else if x = '€' then some (y :: r3)
          else some (x :: y :: r3)
        | [x] => if x = '€' then some [] else some [x]
        | [] => some []
      else none
    | _ => none

/-- Modelled from the spec: one spec-worded currency token with its optional
sign, anchored at the head of the input. -/
def specAmountRest (l : List Char) : Option (List Char) :=
  match l with
  | c :: r =>
    if c = '+' || c = '-' then specAmountBodyRest r else specAmountBodyRest (c :: r)
  | [] => none

/-- Modelled from the spec: how many spec-worded currency tokens a line
holds, scanning like `findall`. -/
def specAmountCount (s : String) : Nat :=
  (scanAllF specAmountRest s.data.length s.data).length

/-! Helper lemmas about `takeWhile`/`dropWhile`/`filter` used to reconstruct
the prefix consumed by the hand-compiled regex parsers. -/

/-- The head of `l`, when it exists, fails `p`. -/
def headNot (p : Char → Bool) : List Char → Prop
  | [] => True
  | x :: _ => p x = false

theorem takeWhile_all_append {p : Char → Bool} :
    ∀ {m rest : List Char}, (∀ c ∈ m, p c = true) → headNot p rest →
      (m ++ rest).takeWhile p = m ∧ (m ++ rest).dropWhile p = rest := by
  intro m
  induction m with
  | nil =>
    intro rest _ hrest
    cases rest with
    | nil => simp
    | cons x t =>
      simp only [headNot] at hrest
      simp [List.takeWhile_cons, List.dropWhile_cons, hrest]
  | cons c m ih =>
    intro rest hall hrest
    have hc : p c = true := hall c (by simp)
    have hm : ∀ x ∈ m, p x = true := fun x hx => hall x (by simp [hx])
    obtain ⟨h1, h2⟩ := ih hm hrest
    simp [List.takeWhile_cons, List.dropWhile_cons, hc, h1, h2]

theorem takeWhile_mem {p : Char → Bool} :
    ∀ {l : List Char} {c : Char}, c ∈ l.takeWhile p → p c = true := by
  intro l
  induction l with
  | nil => intro c hc; simp [List.takeWhile] at hc
  | cons x t ih =>
    intro c hc
    rw [List.takeWhile_cons] at hc
    by_cases hx : p x = true
    · rw [if_pos hx] at hc
      rcases List.mem_cons.mp hc with h | h
      · rwa [h]
      · exact ih h
    · rw [if_neg hx] at hc
      cases hc

theorem dropWhile_all_prepend {p : Char → Bool} :
    ∀ {xs ys : List Char}, (∀ c ∈ xs, p c = true) →
      (xs ++ ys).dropWhile p = ys.dropWhile p := by
  intro xs
  induction xs with
  | nil => intro ys _; simp
  | cons x t ih =>
    intro ys hall
    have hx : p x = true := hall x (by simp)
    rw [List.cons_append, List.dropWhile_cons, if_pos hx]
    exact ih fun c hc => hall c (by simp [hc])

theorem filter_all_keep {q : Char → Bool} :
    ∀ {l : List Char}, (∀ c ∈ l, q c = true) → l.filter q = l := by
  intro l
  induction l with
  | nil => intro _; simp
  | cons x t ih =>
    intro hall
    rw [List.filter_cons, if_pos (hall x (by simp))]
    rw [ih fun c hc => hall c (by simp [hc])]

theorem map_all_fix {f : Char → Char} :
    ∀ {l : List Char}, (∀ c ∈ l, f c = c) → l.map f = l := by
  intro l
  induction l with
  | nil => intro _; simp
  | cons x t ih =>
    intro hall
    rw [List.map_cons, hall x (by simp), ih fun c hc => hall c (by simp [hc])]

/-- Stripping a string with non-whitespace first and last characters
followed by trailing whitespace yields the string. -/
theorem stripChars_sandwich (c0 : Char) (mid : List Char) (cl : Char) (sp : List Char)
    (h0 : c0.isWhitespace = false) (hl : cl.isWhitespace = false)
    (hsp : ∀ c ∈ sp, c.isWhitespace = true) :
    stripChars ((c0 :: mid ++ [cl]) ++ sp) = c0 :: mid ++ [cl] := by
  unfold stripChars
  have h1 : ((c0 :: mid ++ [cl]) ++ sp).dropWhile Char.isWhitespace =
      (c0 :: mid ++ [cl]) ++ sp := by
    rw [show ((c0 :: mid ++ [cl]) ++ sp : List Char) = c0 :: (mid ++ [cl] ++ sp) by simp]
    rw [List.dropWhile_cons, if_neg (by simp [h0])]
  rw [h1, List.reverse_append]
  have hsprev : ∀ c ∈ sp.reverse, Char.isWhitespace c = true := by
    intro c hc
    exact hsp c (List.mem_reverse.mp hc)
  rw [dropWhile_all_prepend hsprev]
  have h2 : (c0 :: mid ++ [cl]).reverse = cl :: (c0 :: mid).reverse := by
    rw [List.reverse_append]
    simp
  rw [h2, List.dropWhile_cons, if_neg (by simp [hl])]
  simp

theorem take_append_self (m r : List Char) :
    (m ++ r).take ((m ++ r).length - r.length) = m := by
  have hlen : (m ++ r).length - r.length = m.length := by
    rw [List.length_append]; omega
  rw [hlen]
  induction m with
  | nil => simp
  | cons x t ih => simp [ih]

/-- Digits are none of the punctuation characters the parsers look for. -/
theorem isD_ne {c : Char} (h : isD c = true) :
    c ≠ '.' ∧ c ≠ ',' ∧ c ≠ ' ' ∧ c ≠ '€' ∧ c ≠ '+' ∧ c ≠ '-' := by
  refine ⟨?_, ?_, ?_, ?_, ?_, ?_⟩ <;>
    (intro hc; rw [hc] at h; exact absurd h (by decide))

theorem isD_not_ws {c : Char} (h : isD c = true) : c.isWhitespace = false := by
  by_contra hw
  rw [Bool.not_eq_false] at hw
  have hws : ((c = ' ' ∨ c = '\t') ∨ c = '\r') ∨ c = '\n' := by
    simpa [Char.isWhitespace, decide_eq_true_eq] using hw
  rcases hws with ((h1 | h1) | h1) | h1 <;> (subst h1; exact absurd h (by decide))

/-- Defining equation of `groupsRest` on a four-element head. -/
theorem groupsRest_cons4 (c a b d : Char) (r2 : List Char) :
    groupsRest (c :: a :: b :: d :: r2) =
      if c = '.' && isD a && isD b && isD d then groupsRest r2
      else c :: a :: b :: d :: r2 := rfl

/-- The characters consumed by `groupsRest` are digits and dots. -/
theorem groupsRest_consumed (l : List Char) :
    ∃ g, l = g ++ groupsRest l ∧ ∀ c ∈ g, isD c = true ∨ c = '.' := by
  have aux : ∀ n (l : List Char), l.length ≤ n →
      ∃ g, l = g ++ groupsRest l ∧ ∀ c ∈ g, isD c = true ∨ c = '.' := by
    intro n
    induction n with
    | zero =>
      intro l hl
      have hnil : l = [] := List.eq_nil_of_length_eq_zero (Nat.le_zero.mp hl)
      subst hnil
      exact ⟨[], by simp [groupsRest], by simp⟩
    | succ n ih =>
      intro l hl
      rcases l with _ | ⟨c, _ | ⟨a, _ | ⟨b, _ | ⟨d, r2⟩⟩⟩⟩
      · exact ⟨[], by simp [groupsRest], by simp⟩
      · exact ⟨[], by simp [groupsRest], by simp⟩
      · exact ⟨[], by simp [groupsRest], by simp⟩
      · exact ⟨[], by simp [groupsRest], by simp⟩
      · rw [groupsRest_cons4]
        by_cases hcond : (decide (c = '.') && isD a && isD b && isD d) = true
        · rw [if_pos hcond]
          obtain ⟨g, hg, hgd⟩ :=
            ih r2 (by simp only [List.length_cons] at hl; omega)
          simp only [Bool.and_eq_true, decide_eq_true_eq] at hcond
          refine ⟨c :: a :: b :: d :: g, ?_, ?_⟩
          · simp only [List.cons_append, List.cons.injEq, true_and]
            exact hg
          · intro x hx
            simp only [List.mem_cons] at hx
            rcases hx with h1 | h1 | h1 | h1 | h1
            · exact Or.inr (h1.trans hcond.1.1.1)
            · exact Or.inl (h1 ▸ hcond.1.1.2)
            · exact Or.inl (h1 ▸ hcond.1.2)
            · exact Or.inl (h1 ▸ hcond.2)
            · exact hgd x h1
        · rw [if_neg hcond]
          exact ⟨[], by simp, by simp⟩
  exact aux l.length l (Nat.le_refl _)

/-- The prefix consumed by `numRest` is a non-empty digit-and-dot block
starting with a digit. -/
theorem numRest_consumed {l r : List Char} (h : numRest l = some r) :
    ∃ d mtl, l = (d :: mtl) ++ r ∧ isD d = true ∧
      ∀ c ∈ mtl, isD c = true ∨ c = '.' := by
  unfold numRest at h
  by_cases hds : (l.takeWhile isD).isEmpty
  · simp [hds] at h
  · obtain ⟨d, tl, hta⟩ : ∃ d tl, l.takeWhile isD = d :: tl := by
      cases hta : l.takeWhile isD with
      | nil => rw [hta] at hds; simp at hds
      | cons d tl => exact ⟨d, tl, rfl⟩
    have hd : isD d = true := takeWhile_mem (by rw [hta]; simp)
    have htl : ∀ c ∈ tl, isD c = true := fun c hc =>
      takeWhile_mem (l := l) (by rw [hta]; simp [hc])
    have hsplit : l = (d :: tl) ++ l.dropWhile isD := by
      conv_lhs => rw [← List.takeWhile_append_dropWhile (p := isD) (l := l)]
      rw [hta]
    simp only [hds, Bool.false_eq_true, if_false] at h
    split at h
    · cases h
      obtain ⟨g, hg, hgd⟩ := groupsRest_consumed (l.dropWhile isD)
      refine ⟨d, tl ++ g, ?_, hd, ?_⟩
      · conv_lhs => rw [hsplit]
        conv_lhs => rw [hg]
        simp [List.append_assoc]
      · intro c hc
        rcases List.mem_append.mp hc with h1 | h1
        · exact Or.inl (htl c h1)
        · exact hgd c h1
    · cases h
      exact ⟨d, tl, hsplit, hd, fun c hc => Or.inl (htl c hc)⟩

/-- `locale.atof` succeeds on any string of the shape produced by a match of
`AMOUNT_PATTERN` once the `€` signs are dropped: optional sign, digits and
dots, comma, two digits, trailing spaces. -/
theorem atofChars_token (sgn : List Char) (d : Char) (mtl : List Char)
    (a b : Char) (tail : List Char)
    (hsgn : sgn = [] ∨ sgn = ['+'] ∨ sgn = ['-'])
    (hd : isD d = true)
    (hmtl : ∀ c ∈ mtl, isD c = true ∨ c = '.')
    (ha : isD a = true) (hb : isD b = true)
    (htail : ∀ c ∈ tail, c = ' ' ∨ c = '€') :
    ∃ v, atofChars ((sgn ++ (d :: mtl) ++ [',', a, b] ++ tail).filter
      (fun c => c ≠ '€')) = some v := by
  have hmtl_ne : ∀ c ∈ mtl, (c ≠ '€') = True := by
    intro c hc
    rcases hmtl c hc with h1 | h1
    · simp [(isD_ne h1).2.2.2.1]
    · subst h1; simp
  have hfilter_sgn : sgn.filter (fun c => c ≠ '€') = sgn := by
    rcases hsgn with h1 | h1 | h1 <;> (subst h1; decide)
  have hfilter_num : (d :: mtl).filter (fun c => c ≠ '€') = d :: mtl := by
    apply filter_all_keep
    intro c hc
    rcases List.mem_cons.mp hc with h1 | h1
    · subst h1; simp [(isD_ne hd).2.2.2.1]
    · simp [hmtl_ne c h1]
  have hfilter_cab : ([',', a, b] : List Char).filter (fun c => c ≠ '€') = [',', a, b] := by
    apply filter_all_keep
    intro c hc
    simp only [List.mem_cons] at hc
    rcases hc with h1 | h1 | h1 | h1
    · subst h1; decide
    · subst h1; simp [(isD_ne ha).2.2.2.1]
    · subst h1; simp [(isD_ne hb).2.2.2.1]
    · cases h1
  -- the spaces that survive the € removal
  set sp := tail.filter (fun c => c ≠ '€') with hsp
  have hsp_sp : ∀ c ∈ sp, c = ' ' := by
    intro c hc
    rw [hsp] at hc
    have hmem := List.mem_of_mem_filter hc
    have hne := List.of_mem_filter hc
    simp only [decide_eq_true_eq] at hne
    rcases htail c hmem with h1 | h1
    · exact h1
    · exact absurd h1 hne
  rw [List.filter_append, List.filter_append, List.filter_append,
    hfilter_sgn, hfilter_num, hfilter_cab]
  -- delocalize: drop dots, then comma becomes dot
  unfold atofChars delocalizeChars
  set mtl2 := mtl.filter (fun c => c ≠ '.') with hmtl2
  have hmtl2D : ∀ c ∈ mtl2, isD c = true := by
    intro c hc
    rw [hmtl2] at hc
    have hmem := List.mem_of_mem_filter hc
    have hne := List.of_mem_filter hc
    simp only [decide_eq_true_eq] at hne
    rcases hmtl c hmem with h1 | h1
    · exact h1
    · exact absurd h1 hne
  have hdl_sgn : sgn.filter (fun c => c ≠ '.') = sgn := by
    rcases hsgn with h1 | h1 | h1 <;> (subst h1; decide)
  have hdl_num : (d :: mtl).filter (fun c => c ≠ '.') = d :: mtl2 := by
    rw [List.filter_cons, if_pos (by simp [(isD_ne hd).1])]
  have hdl_cab : ([',', a, b] : List Char).filter (fun c => c ≠ '.') = [',', a, b] := by
    apply filter_all_keep
    intro c hc
    simp only [List.mem_cons] at hc
    rcases hc with h1 | h1 | h1 | h1
    · subst h1; decide
    · subst h1; simp [(isD_ne ha).1]
    · subst h1; simp [(isD_ne hb).1]
    · cases h1
  have hdl_sp : sp.filter (fun c => c ≠ '.') = sp := by
    apply filter_all_keep
    intro c hc
    have h1 := hsp_sp c hc
    subst h1; decide
  rw [List.filter_append, List.filter_append, List.filter_append,
    hdl_sgn, hdl_num, hdl_cab, hdl_sp]
  -- the comma map
  have hmap_sgn : sgn.map (fun c => if c = ',' then '.' else c) = sgn := by
    rcases hsgn with h1 | h1 | h1 <;> (subst h1; decide)
  have hmap_num : ((d :: mtl2).map (fun c => if c = ',' then '.' else c)) = d :: mtl2 := by
    apply map_all_fix
    intro c hc
    rcases List.mem_cons.mp hc with h1 | h1
    · subst h1; simp [(isD_ne hd).2.1]
    · simp [(isD_ne (hmtl2D c h1)).2.1]
  have hmap_cab : (([',', a, b] : List Char).map (fun c => if c = ',' then '.' else c)) =
      ['.', a, b] := by
    simp [(isD_ne ha).2.1, (isD_ne hb).2.1]
  have hmap_sp : sp.map (fun c => if c = ',' then '.' else c) = sp := by
    apply map_all_fix
    intro c hc
    have h1 := hsp_sp c hc
    subst h1; decide
  rw [List.map_append, List.map_append, List.map_append,
    hmap_sgn, hmap_num, hmap_cab, hmap_sp]
  -- strip: nothing at the front, the whitespace of `sp` at the back
  have hspws : ∀ c ∈ sp, Char.isWhitespace c = true := by
    intro c hc
    have h1 := hsp_sp c hc
    subst h1
    decide
  -- the float grammar accepts sign, digits, dot, two digits
  have hbody : ((d :: mtl2) ++ ['.', a, b]).takeWhile isD = d :: mtl2 ∧
      ((d :: mtl2) ++ ['.', a, b]).dropWhile isD = ['.', a, b] := by
    apply takeWhile_all_append
    · intro c hc
      rcases List.mem_cons.mp hc with h1 | h1
      · subst h1; exact hd
      · exact hmtl2D c h1
    · simp only [headNot]; decide
  have hfrac : ∀ neg, floatFrac neg (d :: mtl2) ['.', a, b] =
      some (decValue neg (d :: mtl2) [a, b]) := by
    intro neg
    simp [floatFrac, List.dropWhile_cons, List.takeWhile_cons, ha, hb]
  rcases hsgn with h1 | h1 | h1 <;> subst h1
  · refine ⟨decValue false (d :: mtl2) [a, b], ?_⟩
    rw [show (([] : List Char) ++ (d :: mtl2) ++ ['.', a, b] ++ sp) =
      ((d :: (mtl2 ++ ['.', a]) ++ [b]) ++ sp) by simp]
    rw [stripChars_sandwich d (mtl2 ++ ['.', a]) b sp (isD_not_ws hd) (isD_not_ws hb) hspws]
    rw [show ((d :: (mtl2 ++ ['.', a]) ++ [b]) : List Char) = d :: (mtl2 ++ ['.', a, b])
      by simp]
    rw [floatOfChars_cons]
    have hcn : ¬((decide (d = '+') || decide (d = '-')) = true) := by
      simp only [Bool.or_eq_true, decide_eq_true_eq]
      rintro (h2 | h2)
      · exact (isD_ne hd).2.2.2.2.1 h2
      · exact (isD_ne hd).2.2.2.2.2 h2
    rw [if_neg hcn]
    rw [show (d :: (mtl2 ++ ['.', a, b]) : List Char) = (d :: mtl2) ++ ['.', a, b] by simp,
      hbody.1, hbody.2]
    exact hfrac false
  · refine ⟨decValue false (d :: mtl2) [a, b], ?_⟩
    rw [show ((['+'] ++ (d :: mtl2) ++ ['.', a, b] ++ sp) : List Char) =
      (('+' :: ((d :: mtl2) ++ ['.', a]) ++ [b]) ++ sp) by simp]
    rw [stripChars_sandwich '+' ((d :: mtl2) ++ ['.', a]) b sp (by decide)
      (isD_not_ws hb) hspws]
    rw [show (('+' :: ((d :: mtl2) ++ ['.', a]) ++ [b]) : List Char) =
      '+' :: ((d :: mtl2) ++ ['.', a, b]) by simp]
    rw [floatOfChars_cons]
    have hcp : (decide ('+' = '+') || decide ('+' = '-')) = true := by decide
    rw [if_pos hcp, hbody.1, hbody.2]
    rw [show (decide ('+' = '-')) = false from by decide]
    exact hfrac false
  · refine ⟨decValue true (d :: mtl2) [a, b], ?_⟩
    rw [show ((['-'] ++ (d :: mtl2) ++ ['.', a, b] ++ sp) : List Char) =
      (('-' :: ((d :: mtl2) ++ ['.', a]) ++ [b]) ++ sp) by simp]
    rw [stripChars_sandwich '-' ((d :: mtl2) ++ ['.', a]) b sp (by decide)
      (isD_not_ws hb) hspws]
    rw [show (('-' :: ((d :: mtl2) ++ ['.', a]) ++ [b]) : List Char) =
      '-' :: ((d :: mtl2) ++ ['.', a, b]) by simp]
    rw [floatOfChars_cons]
    have hcm : (decide ('-' = '+') || decide ('-' = '-')) = true := by decide
    rw [if_pos hcm, hbody.1, hbody.2]
    rw [show (decide ('-' = '-')) = true from by decide]
    exact hfrac true

/-- Structure of the prefix consumed by the unsigned amount pattern: a
number block, a comma, two digits, and the (space-)euro tail. -/
theorem amountBodyRest_consumed {l r : List Char} (h : amountBodyRest l = some r) :
    ∃ d mtl a b tail, l = ((d :: mtl) ++ [',', a, b] ++ tail) ++ r ∧
      isD d = true ∧ (∀ c ∈ mtl, isD c = true ∨ c = '.') ∧
      isD a = true ∧ isD b = true ∧ (∀ c ∈ tail, c = ' ' ∨ c = '€') := by
  unfold amountBodyRest at h
  cases hn : numRest l with
  | none => rw [hn] at h; cases h
  | some r1 =>
    rw [hn] at h
    obtain ⟨d, mtl, hsplit, hd, hmtl⟩ := numRest_consumed hn
    rcases r1 with _ | ⟨c, _ | ⟨a, _ | ⟨b, r2⟩⟩⟩
    · cases h
    · cases h
    · cases h
    · simp only at h
      split at h
      · next hcond =>
        simp only [Bool.and_eq_true, decide_eq_true_eq] at hcond
        obtain ⟨⟨hc, ha⟩, hb⟩ := hcond
        subst hc
        rcases r2 with _ | ⟨x, _ | ⟨y, r3⟩⟩
        · cases h
        · simp only at h
          split at h
          · next hx =>
            cases h
            subst hx
            refine ⟨d, mtl, a, b, ['€'], ?_, hd, hmtl, ha, hb, by simp⟩
            rw [hsplit]
            simp
          · cases h
        · simp only at h
          split at h
          · next hxy =>
            simp only [Bool.and_eq_true, decide_eq_true_eq] at hxy
            cases h
            refine ⟨d, mtl, a, b, [' ', '€'], ?_, hd, hmtl, ha, hb, ?_⟩
            · rw [hsplit, hxy.1, hxy.2]
              simp
            · intro c hc
              simp only [List.mem_cons] at hc
              rcases hc with h1 | h1 | h1
              · exact Or.inl h1
              · exact Or.inr h1
              · cases h1
          · split at h
            · next hx =>
              cases h
              subst hx
              refine ⟨d, mtl, a, b, ['€'], ?_, hd, hmtl, ha, hb, by simp⟩
              rw [hsplit]
              simp
            · cases h
      · cases h

/-- The prefix consumed by a full `AMOUNT_PATTERN` match, once euro signs
are removed and the result stripped, is accepted by `locale.atof`. -/
theorem amountRest_consumed {l r : List Char} (h : amountRest l = some r) :
    ∃ m, l = m ++ r ∧ ∃ v, atofChars (m.filter (fun c => c ≠ '€')) = some v := by
  unfold amountRest at h
  rcases l with _ | ⟨c, t⟩
  · cases h
  · simp only at h
    split at h
    · next hsgn =>
      simp only [Bool.or_eq_true, decide_eq_true_eq] at hsgn
      obtain ⟨d, mtl, a, b, tail, hsplit, hd, hmtl, ha, hb, htail⟩ :=
        amountBodyRest_consumed h
      refine ⟨c :: ((d :: mtl) ++ [',', a, b] ++ tail), ?_, ?_⟩
      · rw [show (c :: ((d :: mtl) ++ [',', a, b] ++ tail)) ++ r =
          c :: (((d :: mtl) ++ [',', a, b] ++ tail) ++ r) by simp]
        rw [← hsplit]
      · have hv := atofChars_token [c] d mtl a b tail
          (by rcases hsgn with h1 | h1 <;> subst h1 <;> simp) hd hmtl ha hb htail
        simpa using hv
    · obtain ⟨d, mtl, a, b, tail, hsplit, hd, hmtl, ha, hb, htail⟩ :=
        amountBodyRest_consumed h
      refine ⟨(d :: mtl) ++ [',', a, b] ++ tail, hsplit, ?_⟩
      have hv := atofChars_token [] d mtl a b tail (Or.inl rfl) hd hmtl ha hb htail
      simpa using hv

/-- Claim C1, counterexample: the claim reads amount parsing as returning a
value iff the line holds exactly one token of the spec's wording, whose
trailing currency symbol is optional.  The line `"123,45"` holds exactly one
such spec-worded token, yet `_extract_billed_amount` returns `None`: the
code's `AMOUNT_PATTERN` makes the euro sign mandatory. -/
theorem C1_counterexample :
    ¬ (((extract_billed_amount "123,45").isSome = true) ↔
      specAmountCount "123,45" = 1) := by
  decide

/-- Claim C1, amended: `_extract_billed_amount` returns a parsed numeric
value if and only if the input line contains exactly one well-formed
currency token — optional sign, thousands grouped by period, comma decimal
separator, two decimal digits, and a mandatory trailing euro sign optionally
preceded by a space; for every line with zero or two-or-more such tokens it
returns `None` (and the owning record is dropped by the sanitizer). -/
theorem C1_amount_value_iff (s : String) :
    (∃ v, extract_billed_amount s = some v) ↔ (amountFindall s).length = 1 := by
  constructor
  · rintro ⟨v, hv⟩
    unfold extract_billed_amount at hv
    cases hfa : amountFindall s with
    | nil => rw [hfa] at hv; cases hv
    | cons t ts =>
      cases ts with
      | nil => simp
      | cons t2 ts2 =>
        rw [hfa] at hv
        simp only at hv
        cases hv
  · intro hlen
    obtain ⟨t, ht⟩ : ∃ t, amountFindall s = [t] := by
      cases hfa : amountFindall s with
      | nil => rw [hfa] at hlen; cases hlen
      | cons t ts =>
        cases ts with
        | nil => exact ⟨t, rfl⟩
        | cons t2 ts2 => rw [hfa] at hlen; simp at hlen
    have htok : t ∈ scanAllF amountRest s.data.length s.data := by
      have : t ∈ amountFindall s := by rw [ht]; simp
      unfold amountFindall at this
      exact this
    obtain ⟨u, r, hur, htake⟩ := scanAllF_tokens amountRest _ _ _ htok
    obtain ⟨m, hmur, v, hv⟩ := amountRest_consumed hur
    have htm : t = m := by
      rw [htake, hmur, take_append_self]
    refine ⟨v, ?_⟩
    unfold extract_billed_amount
    rw [ht]
    simp only
    rw [htm]
    exact hv

/-! Date parsing: `datetime.strptime` with the formats of the source, and
the `%d/%m/%Y` re-rendering used throughout. -/

/-- One or two digits with the value range of the strptime `%d`/`%m`
classes: a two-digit form in `lo..hi` (`00` excluded since `lo ≥ 1`), else a
single digit `1..9`.  When the two-digit form is taken, retrying with one
digit leaves a digit where the format expects a literal, so the greedy
choice is faithful. -/
def parse12 (lo hi : Nat) (l : List Char) : Option (Nat × List Char) :=
  match l with
  | a :: b :: r =>
    if isD a && isD b && decide (lo ≤ dval a * 10 + dval b) &&
        decide (dval a * 10 + dval b ≤ hi) then
      some (dval a * 10 + dval b, r)
    else if isD a && decide (1 ≤ dval a) && decide (dval a ≤ 9) then
      some (dval a, b :: r)
    else none
  | [a] =>
    if isD a && decide (1 ≤ dval a) && decide (dval a ≤ 9) then some (dval a, [])
    else none
  | [] => none

/-- Exactly four digits, the strptime `%Y` class. -/
def parseY4 (l : List Char) : Option (Nat × List Char) :=
  match l with
  | a :: b :: c :: d :: r =>
    if isD a && isD b && isD c && isD d then
      some (((dval a * 10 + dval b) * 10 + dval c) * 10 + dval d, r)
    else none
  | _ => none

def isLeap (y : Nat) : Bool :=
  (y % 4 = 0 && decide (y % 100 ≠ 0)) || y % 400 = 0

def daysInMonth (m y : Nat) : Nat :=
  if m = 2 then (if isLeap y then 29 else 28)
  else if m = 4 || m = 6 || m = 9 || m = 11 then 30
  else 31

/-- The validation `datetime.date` performs on construction. -/
def dateValid (d m y : Nat) : Bool :=
  decide (1 ≤ y) && decide (1 ≤ m) && decide (m ≤ 12) &&
    decide (1 ≤ d) && decide (d ≤ daysInMonth m y)

/-- `datetime.strptime(s, "%d/%m/%Y")` followed by the `datetime.date`
validity check; `none` models the `ValueError`. -/
def parseDateDMY (s : String) : Option (Nat × Nat × Nat) :=
  match parse12 1 31 s.data with
  | none => none
  | some (d, r1) =>
    match r1 with
    | [] => none
    | c1 :: r2 =>
      if c1 = '/' then
        (match parse12 1 12 r2 with
        | none => none
        | some (m, r3) =>
          match r3 with
          | [] => none
          | c2 :: r4 =>
            if c2 = '/' then
              (match parseY4 r4 with
              | none => none
              | some (y, r5) =>
                if r5.isEmpty && dateValid d m y then some (d, m, y) else none)
            else none)
      else none

def pad2 (n : Nat) : String :=
  if n < 10 then "0" ++ toString n else toString n

def pad4 (n : Nat) : String :=
  if n < 10 then "000" ++ toString n
  else if n < 100 then "00" ++ toString n
  else if n < 1000 then "0" ++ toString n
  else toString n

/-- `date.strftime("%d/%m/%Y")`. -/
def formatDMY (dmy : Nat × Nat × Nat) : String :=
  pad2 dmy.1 ++ "/" ++ pad2 dmy.2.1 ++ "/" ++ pad4 dmy.2.2

def spanishMonths : List (Nat × List Char) :=
  [(1, "enero".data), (2, "febrero".data), (3, "marzo".data), (4, "abril".data),
   (5, "mayo".data), (6, "junio".data), (7, "julio".data), (8, "agosto".data),
   (9, "septiembre".data), (10, "octubre".data), (11, "noviembre".data),
   (12, "diciembre".data)]

def matchMonth : List (Nat × List Char) → List Char → Option (Nat × List Char)
  | [], _ => none
  | (n, name) :: rest, l =>
    if name.isPrefixOf l then some (n, l.drop name.length) else matchMonth rest l

/-- The `\s+` a literal space in a strptime format compiles to. -/
def ws1 (l : List Char) : Option (List Char) :=
  match l with
  | c :: r => if c.isWhitespace then some (r.dropWhile Char.isWhitespace) else none
  | [] => none

/-- `datetime.strptime(s, "%d de %B de %Y")` under the Spanish locale the
program sets: day, whitespace, `de`, whitespace, a full Spanish month name,
whitespace, `de`, whitespace, four-digit year (matched case-insensitively,
modelled by lowercasing the input first). -/
def parseDateSpanish (s : String) : Option (Nat × Nat × Nat) :=
  match parse12 1 31 (s.data.map Char.toLower) with
  | none => none
  | some (d, r1) =>
    match ws1 r1 with
    | none => none
    | some r2 =>
      match r2 with
      | c1 :: c2 :: r3 =>
        if c1 = 'd' && c2 = 'e' then
          (match ws1 r3 with
          | none => none
          | some r4 =>
            match matchMonth spanishMonths r4 with
            | none => none
            | some (m, r5) =>
              match ws1 r5 with
              | none => none
              | some r6 =>
                match r6 with
                | e1 :: e2 :: r7 =>
                  if e1 = 'd' && e2 = 'e' then
                    (match ws1 r7 with
                    | none => none
                    | some r8 =>
                      match parseY4 r8 with
                      | none => none
                      | some (y, r9) =>
                        if r9.isEmpty && dateValid d m y then some (d, m, y)
                        else none)
                  else none
                | _ => none)
        else none
      | _ => none

/-! The data model: the raw, string-valued record an extractor fills in, and
the typed record the sanitizer produces. -/

/-- The dict built by `_get_default_bill_info` plus the `P1`..`P6` keys the
extractors may add (`none` models an absent key; the extractors only ever
store strings there). -/
structure RawBillInfo where
  is_ours : Bool := false
  bill_id : Option String := none
  billing_date : Option String := none
  billing_period : Option String := none
  billed_power_capacity : Option String := none
  billed_energy_consumed : Option String := none
  billed_amount_0 : Option String := none
  billed_amount_1 : Option String := none
  is_rectification : Bool := false
  cups : Option String := none
  P1 : Option String := none
  P2 : Option String := none
  P3 : Option String := none
  P4 : Option String := none
  P5 : Option String := none
  P6 : Option String := none
deriving Repr, DecidableEq

/-- `_get_default_bill_info()`. -/
def get_default_bill_info : RawBillInfo := {}

/-- `bill_info[power_type] = power_amount` for a tariff key.  The tariff
patterns only ever produce `P1`..`P6` (`Punta`/`Llano`/`Valle` are mapped
before this point), so the fall-through branch is unreachable. -/
def setPx (b : RawBillInfo) (pt : String) (v : String) : RawBillInfo :=
  if pt = "P1" then { b with P1 := some v }
  else if pt = "P2" then { b with P2 := some v }
  else if pt = "P3" then { b with P3 := some v }
  else if pt = "P4" then { b with P4 := some v }
  else if pt = "P5" then { b with P5 := some v }
  else if pt = "P6" then { b with P6 := some v }
  else b

/-- Is a dict value missing: `None`, or a string that strips to empty?
(Booleans are never missing.) -/
def blankOpt : Option String → Bool
  | none => true
  | some s => pyStrip s = ""

/-- The `P1`..`P6` entries contribute to `data.items()` only when the key is
present.  (The source appends these keys in first-assignment order; the
fixed `P1..P6` order used here affects only the ordering of the diagnostic
`missing_keys` list, which no behaviour depends on.) -/
def pxItem (k : String) : Option String → List (String × Bool)
  | none => []
  | some s => [(k, decide (pyStrip s = ""))]

/-- `data.items()` with each value replaced by its blankness. -/
def rawItems (r : RawBillInfo) : List (String × Bool) :=
  [("is_ours", false),
   ("bill_id", blankOpt r.bill_id),
   ("billing_date", blankOpt r.billing_date),
   ("billing_period", blankOpt r.billing_period),
   ("billed_power_capacity", blankOpt r.billed_power_capacity),
   ("billed_energy_consumed", blankOpt r.billed_energy_consumed),
   ("billed_amount_0", blankOpt r.billed_amount_0),
   ("billed_amount_1", blankOpt r.billed_amount_1),
   ("is_rectification", false),
   ("cups", blankOpt r.cups)] ++
  pxItem "P1" r.P1 ++ pxItem "P2" r.P2 ++ pxItem "P3" r.P3 ++
  pxItem "P4" r.P4 ++ pxItem "P5" r.P5 ++ pxItem "P6" r.P6

/-- `is_bill_sane(data)`: every key must have a non-`None`, non-blank value;
the full list of offending keys is collected before reporting. -/
def is_bill_sane (r : RawBillInfo) : Bool × List String :=
  ((((rawItems r).filter (fun kv => kv.2)).map (fun kv => kv.1)).isEmpty,
   (((rawItems r).filter (fun kv => kv.2)).map (fun kv => kv.1)))

/-- The typed record `sanitize_bill` hands back (the source mutates the dict
in place; the typed fields it ends up holding are modelled as a fresh
record).  `file` is attached by the processing loop afterwards. -/
structure BillRecord where
  is_ours : Bool
  bill_id : String
  billing_date : Nat × Nat × Nat
  billing_period : String
  billing_period_start : Nat × Nat × Nat
  billing_period_end : Nat × Nat × Nat
  billed_power_capacity : Rat
  billed_energy_consumed : Rat
  billed_amount_0 : Rat
  billed_amount_1 : Rat
  is_rectification : Bool
  cups : String
  P1 : Rat
  P2 : Rat
  P3 : Rat
  P4 : Option Rat
  P5 : Option Rat
  P6 : Option Rat
  file : Option String := none
deriving Repr, DecidableEq

/-- One `\d{2}/\d{2}/\d{4}` token anchored at the head of the input. -/
def dateTokRest (l : List Char) : Option (List Char) :=
  match l with
  | a :: b :: s1 :: c :: d :: s2 :: e :: f :: g :: h2 :: r =>
    if isD a && isD b && s1 = '/' && isD c && isD d && s2 = '/' &&
        isD e && isD f && isD g && isD h2 then some r
    else none
  | _ => none

/-- `re.findall(r"\d{2}/\d{2}/\d{4}", s)`. -/
def findallDates (s : String) : List String :=
  (scanAllF dateTokRest s.data.length s.data).map String.mk

/-- The `locale.atof(data[k].strip())` conversion of an optional tariff
entry; a malformed string raises out of `sanitize_bill` (no `try` there). -/
def convPx (o : Option String) : Except Unit (Option Rat) :=
  match o with
  | none => Except.ok none
  | some s =>
    match atofChars s.data with
    | some v => Except.ok (some v)
    | none => Except.error ()

/-- The rectification derivation of `sanitize_bill`: flag the record when
the two parsed totals disagree, else keep the incoming flag. -/
def rectFlag (a0 a1 : Rat) (old : Bool) : Bool :=
  if a1 ≠ a0 then true else old

/-- `sanitize_bill(data)`: completeness gate, billing-date parse,
billing-period extraction (exactly two date tokens), four monetary
extractions, rectification derivation, tariff conversion with mandatory
`P1`..`P3`.  Each graceful drop is `ok none`; `error` marks the
`locale.atof` calls the source leaves outside any `try`. -/
def sanitize_bill (r : RawBillInfo) : Except Unit (Option BillRecord) :=
  if (is_bill_sane r).1 = false then Except.ok none
  else
    match parseDateDMY (r.billing_date.getD "") with
    | none => Except.ok none
    | some bdate =>
      match findallDates (r.billing_period.getD "") with
      | [p0, p1] =>
        match parseDateDMY p0, parseDateDMY p1 with
        | some ps, some pe =>
          match extract_billed_amount (r.billed_power_capacity.getD "") with
          | none => Except.ok none
          | some cap =>
            match extract_billed_amount (r.billed_energy_consumed.getD "") with
            | none => Except.ok none
            | some energy =>
              match extract_billed_amount (r.billed_amount_0.getD "") with
              | none => Except.ok none
              | some a0 =>
                match extract_billed_amount (r.billed_amount_1.getD "") with
                | none => Except.ok none
                | some a1 =>
                  match r.P1 with
                  | none => Except.ok none
                  | some s1 =>
                    match atofChars s1.data with
                    | none => Except.error ()
                    | some v1 =>
                      match r.P2 with
                      | none => Except.ok none
                      | some s2 =>
                        match atofChars s2.data with
                        | none => Except.error ()
                        | some v2 =>
                          match r.P3 with
                          | none => Except.ok none
                          | some s3 =>
                            match atofChars s3.data with
                            | none => Except.error ()
                            | some v3 =>
                              match convPx r.P4, convPx r.P5, convPx r.P6 with
                              | Except.ok v4, Except.ok v5, Except.ok v6 =>
                                Except.ok (some {
                                  is_ours := r.is_ours,
                                  bill_id := r.bill_id.getD "",
                                  billing_date := bdate,
                                  billing_period := r.billing_period.getD "",
                                  billing_period_start := ps,
                                  billing_period_end := pe,
                                  billed_power_capacity := cap,
                                  billed_energy_consumed := energy,
                                  billed_amount_0 := a0,
                                  billed_amount_1 := a1,
                                  is_rectification := rectFlag a0 a1 r.is_rectification,
                                  cups := r.cups.getD "",
                                  P1 := v1, P2 := v2, P3 := v3,
                                  P4 := v4, P5 := v5, P6 := v6 })
                              | _, _, _ => Except.error ()
        | _, _ => Except.ok none
      | _ => Except.ok none

/-- A complete raw record from which the concrete checks below derive their
inputs. -/
def sampleRaw : RawBillInfo :=
  { is_ours := true, bill_id := some "B1", billing_date := some "01/02/2023",
    billing_period := some "01/01/2023 - 31/01/2023",
    billed_power_capacity := some "Potencia 1,00 €",
    billed_energy_consumed := some "2,00 €",
    billed_amount_0 := some "3,00 €", billed_amount_1 := some "3,00 €",
    cups := some "C1", P1 := some "1", P2 := some "2", P3 := some "3" }

/-- Claim C3: for every raw record carrying the default rectification flag
(the one `_get_default_bill_info` installs; no extractor ever touches it)
that sanitization accepts, the returned record's rectification flag is true
exactly when the two independently captured total amounts differ after
parsing. -/
theorem C3_rectification_iff (r : RawBillInfo) (b : BillRecord)
    (hflag : r.is_rectification = false)
    (h : sanitize_bill r = Except.ok (some b)) :
    b.is_rectification = true ↔ b.billed_amount_0 ≠ b.billed_amount_1 := by
  unfold sanitize_bill at h
  repeat' split at h
  all_goals cases h
  dsimp only
  rw [hflag]
  unfold rectFlag
  split
  · next hne =>
    simp only [true_iff]
    intro hc
    exact hne hc.symm
  · next hne =>
    push_neg at hne
    simp [hne]

def c3input : RawBillInfo :=
  { sampleRaw with billed_amount_1 := some "4,00 €" }

/-- Claim C3, witness: a concrete record with differing captured totals
passes sanitization and comes out flagged as a rectification. -/
theorem C3_witness :
    ∃ b, sanitize_bill c3input = Except.ok (some b) ∧
      (b.is_rectification = true ↔ b.billed_amount_0 ≠ b.billed_amount_1) :=
  ⟨_, rfl, C3_rectification_iff c3input _ rfl rfl⟩

/-- Claim C5: a raw record with any declared entry that is `None` or blank
is rejected by sanitization (which therefore never hands the caller a
partially converted record — the only record returned is the fully typed
one); the completeness check lists every missing key, and passes exactly
when that list is empty. -/
theorem C5_missing_field (r : RawBillInfo) :
    ((∃ k, (k, true) ∈ rawItems r) → sanitize_bill r = Except.ok none) ∧
    (∀ k, (k, true) ∈ rawItems r → k ∈ (is_bill_sane r).2) ∧
    ((is_bill_sane r).1 = true ↔ (is_bill_sane r).2 = []) := by
  have hmem : ∀ k, (k, true) ∈ rawItems r → k ∈ (is_bill_sane r).2 := by
    intro k hk
    unfold is_bill_sane
    simp only
    exact List.mem_map.mpr ⟨(k, true), List.mem_filter.mpr ⟨hk, rfl⟩, rfl⟩
  refine ⟨?_, hmem, ?_⟩
  · rintro ⟨k, hk⟩
    have hne : (is_bill_sane r).2 ≠ [] := by
      intro hnil
      have := hmem k hk
      rw [hnil] at this
      cases this
    have hfalse : (is_bill_sane r).1 = false := by
      unfold is_bill_sane at hne ⊢
      simp only at hne ⊢
      cases hl : (((rawItems r).filter (fun kv => kv.2)).map (fun kv => kv.1)) with
      | nil => exact absurd hl hne
      | cons x xs => simp [hl]
    unfold sanitize_bill
    rw [if_pos hfalse]
  · unfold is_bill_sane
    simp only
    exact List.isEmpty_iff

/-- Claim C5, witness: a record whose bill id is missing is dropped, and the
missing-key list names it. -/
theorem C5_witness :
    sanitize_bill { sampleRaw with bill_id := none } = Except.ok none ∧
      "bill_id" ∈ (is_bill_sane { sampleRaw with bill_id := none }).2 :=
  ⟨(C5_missing_field _).1 ⟨"bill_id", by decide⟩,
   (C5_missing_field _).2.1 "bill_id" (by decide)⟩

/-! Tariff-row patterns and the three provider extractors. -/

/-- The `[123456]` class of the tariff patterns. -/
def px16 (c : Char) : Bool :=
  '1' ≤ c && c ≤ '6'

/-- The prefix of `l` consumed down to `rest`. -/
def repTok (l rest : List Char) : List Char :=
  l.take (l.length - rest.length)

/-- `k` repetitions of a parenthesised repeated group; returns the text of
the last repetition (Python group semantics) and the remaining input. -/
def parseRepsLast (p : List Char → Option (List Char)) :
    Nat → List Char → List Char → Option (List Char × List Char)
  | 0, last, l => some (last, l)
  | k + 1, _, l =>
    match p l with
    | none => none
    | some r => parseRepsLast p k (repTok l r) r

/-- One ` (?:\d{1,3}(?:\.\d{3})*|\d+),\d{2}` repetition (Endesa tariff
rows): space, number, comma, exactly two digits. -/
def parseCurRep (l : List Char) : Option (List Char) :=
  match l with
  | c :: r =>
    if c = ' ' then
      (match numRest r with
       | some r1 =>
         (match r1 with
          | c2 :: a :: b :: r2 =>
            if c2 = ',' && isD a && isD b then some r2 else none
          | _ => none)
       | none => none)
    else none
  | [] => none

/-- One ` (?:\d{1,3}(?:\.\d{3})*|\d+)(,\d{2})?` repetition (Total and Nufri
tariff rows): space, number, optional comma plus two digits.  The optional
group is consumed greedily; skipping it instead leaves a `,` where the next
repetition expects a space, so the greedy choice is faithful. -/
def parseIntRep (l : List Char) : Option (List Char) :=
  match l with
  | c :: r =>
    if c = ' ' then
      (match numRest r with
       | some r1 =>
         (match r1 with
          | c2 :: a :: b :: r2 =>
            if c2 = ',' && isD a && isD b then some r2 else some r1
          | _ => some r1)
       | none => none)
    else none
  | [] => none

/-- `ENDESA_PX_PATTERN.match(line)`:
`^(P[123456]) 1\.18\.[123456]( (?:\d{1,3}(?:\.\d{3})*|\d+),\d{2}){5}.*` —
returns (group 1, group 2 = the fifth repetition); the trailing `.*` always
matches, so anything may follow the five tokens. -/
def endesaPxMatch (line : String) : Option (String × String) :=
  match line.data with
  | c0 :: p :: c1 :: c2 :: c3 :: c4 :: c5 :: c6 :: q :: r =>
    if c0 = 'P' && px16 p && c1 = ' ' && c2 = '1' && c3 = '.' && c4 = '1' &&
        c5 = '8' && c6 = '.' && px16 q then
      (match parseRepsLast parseCurRep 5 [] r with
       | some (last, _) => some (String.mk ['P', p], String.mk last)
       | none => none)
    else none
  | _ => none

/-- The `(Punta|Llano|Valle)` alternation (the three names start with
distinct letters, so at most one can match at a position). -/
def pvKeyword (l : List Char) : Option (String × List Char) :=
  if ("Punta".data).isPrefixOf l then some ("Punta", l.drop 5)
  else if ("Llano".data).isPrefixOf l then some ("Llano", l.drop 5)
  else if ("Valle".data).isPrefixOf l then some ("Valle", l.drop 5)
  else none

/-- `ENDESA_PV_PATTERN` at a fixed position: keyword then five currency
repetitions (the trailing `.*` always matches). -/
def endesaPvAt (l : List Char) : Option (String × String) :=
  match pvKeyword l with
  | some (kw, r) =>
    (match parseRepsLast parseCurRep 5 [] r with
     | some (last, _) => some (kw, String.mk last)
     | none => none)
  | none => none

/-- `ENDESA_PV_PATTERN.match(line)`: the leading greedy `.*` backtracks from
the end, so the rightmost position whose suffix matches wins. -/
def endesaPvScan : List Char → Option (String × String)
  | [] => none
  | c :: r =>
    match endesaPvScan r with
    | some x => some x
    | none => endesaPvAt (c :: r)

/-- The `Punta`/`Llano`/`Valle` → `P1`/`P2`/`P3` renaming of
`_extract_endesa_power`. -/
def mapPv (kw : String) : String :=
  if kw = "Punta" then "P1"
  else if kw = "Llano" then "P2"
  else if kw = "Valle" then "P3"
  else kw

/-- `_extract_endesa_power(line)`: try the tariff-code pattern, then the
Punta/Llano/Valle pattern, then rename the three-bracket keywords. -/
def extract_endesa_power (line : String) : Option String × Option String :=
  match endesaPxMatch line with
  | some (pt, pa) => (some pt, some pa)
  | none =>
    match endesaPvScan line.data with
    | some (kw, last) => (some (mapPv kw), some last)
    | none => (none, none)

/-- `^(P[123456])( X){k1}( X){k2}` where `X` is the optional-decimals
number: shared shape of `TOTAL_PV_PATTERN` (3 then 6) and
`NUFRI_PX_PATTERN` (3 then 3); group 2 is the last repetition of the first
group, i.e. the third token.  `re.match` does not anchor the end, so
anything may follow. -/
def pTokensMatch (k1 k2 : Nat) (line : String) : Option (String × String) :=
  match line.data with
  | c0 :: p :: r =>
    if c0 = 'P' && px16 p then
      (match parseRepsLast parseIntRep k1 [] r with
       | some (tok, r1) =>
         (match parseRepsLast parseIntRep k2 [] r1 with
          | some _ => some (String.mk ['P', p], String.mk tok)
          | none => none)
       | none => none)
    else none
  | _ => none

/-- `TOTAL_PV_PATTERN.match(line)`. -/
def totalPvMatch (line : String) : Option (String × String) :=
  pTokensMatch 3 6 line

/-- `NUFRI_PX_PATTERN.match(line)`. -/
def nufriPxMatch (line : String) : Option (String × String) :=
  pTokensMatch 3 3 line

/-- `_extract_total_power(line)`. -/
def extract_total_power (line : String) : Option String × Option String :=
  match totalPvMatch line with
  | some (pt, pa) => (some pt, some pa)
  | none => (none, none)

/-- `_extract_nufri_power(line)`. -/
def extract_nufri_power (line : String) : Option String × Option String :=
  match nufriPxMatch line with
  | some (pt, pa) => (some pt, some pa)
  | none => (none, none)

/-- The `[\,0-9]` class of the Nufri money captures. -/
def moneyClass (c : Char) : Bool :=
  isD c || c = ','

/-- `.*LABEL([\,0-9]+ €).*` at a fixed position: the label, a non-empty run
of the class, a space and the euro sign; the capture includes the ` €`.
Retrying the greedy class run shorter leaves a class character where the
space is expected, so the greedy run is faithful. -/
def moneyCapAt (label : List Char) (l : List Char) : Option String :=
  if label.isPrefixOf l then
    (let r := (l.drop label.length).takeWhile moneyClass
     if r.isEmpty then none
     else
       match (l.drop label.length).dropWhile moneyClass with
       | c :: c2 :: _ =>
         if c = ' ' && c2 = '€' then some (String.mk (r ++ [' ', '€'])) else none
       | _ => none)
  else none

/-- The leading greedy `.*` of the Nufri money regexes: rightmost matching
position wins. -/
def moneyCapScan (label : List Char) : List Char → Option String
  | [] => none
  | c :: r =>
    match moneyCapScan label r with
    | some x => some x
    | none => moneyCapAt label (c :: r)

/-- `pdf.pages[i]` (an `IndexError` aborts the run). -/
def getPage (pages : List String) (i : Nat) : Except Unit String :=
  match pages[i]? with
  | some p => Except.ok p
  | none => Except.error ()

/-- The line loop of an extractor page scan, with exceptions short-circuiting
out of the whole run. -/
def foldE (f : RawBillInfo → String → Except Unit RawBillInfo) :
    RawBillInfo → List String → Except Unit RawBillInfo
  | b, [] => Except.ok b
  | b, line :: rest =>
    match f b line with
    | Except.error e => Except.error e
    | Except.ok b2 => foldE f b2 rest

def porPotenciaLabel : List Char := "Por Potencia Contratada ".data

def porEnergiaLabel : List Char := "Por Energía Consumida ".data

def totalFacturaLabel : List Char := "Total Factura ".data

/-- Does this Nufri page-1 line make one of the three money captures raise
(`re.match(...)` returns `None` and `.group(1)` throws `AttributeError`)?
The source raises at the first failing capture; since the locally mutated
dict is discarded once the exception escapes the extractor, checking the
three failure conditions up front is observably identical. -/
def nufriCrash (line : String) : Bool :=
  (substrOf "Por Potencia Contratada" line &&
    (moneyCapScan porPotenciaLabel line.data).isNone) ||
  (substrOf "Por Energía Consumida" line &&
    (moneyCapScan porEnergiaLabel line.data).isNone) ||
  (substrOf "Total Factura" line &&
    (moneyCapScan totalFacturaLabel line.data).isNone)

/-- The pure updates of a non-raising Nufri page-1 line past the first three
triggers: the period and the two money triggers fall through (no
`continue`), while `Total Factura`, `CUPS:` and the `P` rows are mutually
exclusive.  The `none` fall-backs are unreachable when `nufriCrash` is
false. -/
def nufriApply (b : RawBillInfo) (line : String) : RawBillInfo :=
  let b1 := if substrOf "Periodo de Consumo:" line then
      { b with billing_period := some (pyStrip (lastD (pySplit line ':') "")) }
    else b
  let b2 := if substrOf "Por Potencia Contratada" line then
      (match moneyCapScan porPotenciaLabel line.data with
       | some v => { b1 with billed_power_capacity := some v }
       | none => b1)
    else b1
  let b3 := if substrOf "Por Energía Consumida" line then
      (match moneyCapScan porEnergiaLabel line.data with
       | some v => { b2 with billed_energy_consumed := some v }
       | none => b2)
    else b2
  if substrOf "Total Factura" line then
    (match moneyCapScan totalFacturaLabel line.data with
     | some v => { b3 with billed_amount_0 := some v, billed_amount_1 := some v }
     | none => b3)
  else if pyStartsWith line "CUPS:" then
    { b3 with cups := some (pyStrip (lastD (pySplit line ':') "")) }
  else if pyStartsWith line "P" then
    (match extract_nufri_power line with
     | (some pt, some pa) => setPx b3 pt pa
     | _ => b3)
  else b3

/-- One line of the `extract_nufri_bill` page-1 scan.  Branch structure
mirrors the source's `continue`s: the first three triggers end the line,
the rest is `nufriApply` guarded by the capture-failure check.  A failed
`re.match(...).group(1)` or `strptime` raises out of the extractor. -/
def nufriStep (b : RawBillInfo) (line : String) : Except Unit RawBillInfo :=
  if substrOf "CAMPANILLA" line then Except.ok { b with is_ours := true }
  else if substrOf "Nº de Factura:" line then
    Except.ok { b with bill_id := some (pyJoin ' '
      ((pySplit (pyStrip (lastD (pySplit line ':') "")) ' ').take 2)) }
  else if substrOf "Fecha de Factura:" line then
    (match parseDateDMY (pyStrip (lastD (pySplit line ':') "")) with
     | some dmy => Except.ok { b with billing_date := some (formatDMY dmy) }
     | none => Except.error ())
  else if nufriCrash line then Except.error ()
  else Except.ok (nufriApply b line)

/-- `extract_nufri_bill(file, pdf)`: scan page 1, then drop the record when
the ownership marker was absent or no `P1` row was found. -/
def extract_nufri_bill (pages : List String) : Except Unit (Option RawBillInfo) :=
  match getPage pages 0 with
  | Except.error e => Except.error e
  | Except.ok p0 =>
    match foldE nufriStep get_default_bill_info (splitLines p0) with
    | Except.error e => Except.error e
    | Except.ok b =>
      if b.is_ours = false then Except.ok none
      else if b.P1.isNone then Except.ok none
      else Except.ok (some b)

/-- One line of the `extract_total_bill` page-1 scan (every trigger ends the
line; a bad `Fecha emisión factura:` date raises). -/
def totalStep (b : RawBillInfo) (line : String) : Except Unit RawBillInfo :=
  if substrOf "CAMPANILLA" line then Except.ok { b with is_ours := true }
  else if substrOf "Nº Factura" line then
    Except.ok { b with bill_id := some (pyStrip (lastD (pySplit line ' ') "")) }
  else if substrOf "Fecha emisión factura:" line then
    (match parseDateSpanish (pyStrip (lastD (pySplit line ':') "")) with
     | some dmy => Except.ok { b with billing_date := some (formatDMY dmy) }
     | none => Except.error ())
  else if substrOf "Periodo de facturación:" line then
    Except.ok { b with billing_period := some (pyStrip (lastD (pySplit line ':') "")) }
  else if pyStartsWith line "Potencia " then
    Except.ok { b with billed_power_capacity := some line }
  else if pyStartsWith line "Energía " then
    Except.ok { b with billed_energy_consumed := some line }
  else if pyStartsWith line "TOTAL " then
    Except.ok { b with billed_amount_0 := some line, billed_amount_1 := some line }
  else if substrOf "(CUPS):" line then
    Except.ok { b with cups := some (pyStrip (lastD (pySplit line ':') "")) }
  else Except.ok b

/-- One line of the `extract_total_bill` page-2 scan. -/
def totalStep2 (b : RawBillInfo) (line : String) : RawBillInfo :=
  match extract_total_power line with
  | (some pt, some pa) => setPx b pt pa
  | _ => b

/-- `extract_total_bill(file, pdf)`: scan page 1 and page 2 (a missing page
2 is an `IndexError`), then the ownership and `P1` gates. -/
def extract_total_bill (pages : List String) : Except Unit (Option RawBillInfo) :=
  match getPage pages 0 with
  | Except.error e => Except.error e
  | Except.ok p0 =>
    match foldE totalStep get_default_bill_info (splitLines p0) with
    | Except.error e => Except.error e
    | Except.ok b1 =>
      match getPage pages 1 with
      | Except.error e => Except.error e
      | Except.ok p1 =>
        let b2 := (splitLines p1).foldl totalStep2 b1
        if b2.is_ours = false then Except.ok none
        else if b2.P1.isNone then Except.ok none
        else Except.ok (some b2)

/-- One line of the `extract_endesa_bill` page-1 scan (pure: no strptime, no
unguarded `.group`). -/
def endesaStep1 (b : RawBillInfo) (line : String) : RawBillInfo :=
  if substrOf "CAMPANILLA" line then { b with is_ours := true }
  else if substrOf "Nº factura:" line || substrOf "Nº de factura:" line ||
      substrOf "Nºfactura:" line then
    { b with bill_id := some (pyStrip (lastD (pySplit line ':') "")) }
  else if substrOf "Fecha emisión factura:" line ||
      substrOf "Fechaemisiónfactura:" line then
    { b with billing_date := some (pyStrip (lastD (pySplit line ':') "")) }
  else if substrOf "Periodo de facturación:" line ||
      substrOf "Periododefacturación" line then
    { b with billing_period := some (pyStrip (lastD (pySplit line ':') "")) }
  else if pyStartsWith line "Potencia " then { b with billed_power_capacity := some line }
  else if pyStartsWith line "Energía " then { b with billed_energy_consumed := some line }
  else if pyStartsWith line "Total " then { b with billed_amount_0 := some line }
  else b

/-- One line of the `extract_endesa_bill` page-2 scan: the `TOTAL ` trigger
deliberately falls through to the tariff-row check (totals and readings can
share a line). -/
def endesaStep2 (b : RawBillInfo) (line : String) : RawBillInfo :=
  if substrOf "CUPS" line then
    { b with cups := some (pyStrip
        ((pySplit (pyStrip (lastD (pySplit line ':') "")) '(').headD "")) }
  else
    let b1 := if substrOf "TOTAL " line then { b with billed_amount_1 := some line }
      else b
    match extract_endesa_power line with
    | (some pt, some pa) => setPx b1 pt pa
    | _ => b1

/-- One line of the `extract_endesa_bill` page-3 fallback scan. -/
def endesaStep3 (b : RawBillInfo) (line : String) : RawBillInfo :=
  match extract_endesa_power line with
  | (some pt, some pa) => setPx b pt pa
  | _ => b

/-- `extract_endesa_bill(file, pdf)`: scan page 1 and page 2 (a missing page
2 is an `IndexError`), fall back to page 3 when no `P1` was found, then the
ownership and `P1` gates. -/
def extract_endesa_bill (pages : List String) : Except Unit (Option RawBillInfo) :=
  match getPage pages 0 with
  | Except.error e => Except.error e
  | Except.ok p0 =>
    let b1 := (splitLines p0).foldl endesaStep1 get_default_bill_info
    match getPage pages 1 with
    | Except.error e => Except.error e
    | Except.ok p1 =>
      let b2 := (splitLines p1).foldl endesaStep2 b1
      let b3 := if b2.P1.isNone then
          (if pages.length > 2 then (splitLines (pages.getD 2 "")).foldl endesaStep3 b2
           else b2)
        else b2
      if b3.is_ours = false then Except.ok none
      else if b3.P1.isNone then Except.ok none
      else Except.ok (some b3)

/-! Invariants threaded through the extractor line loops. -/

/-- `setPx` touches only the six tariff entries. -/
theorem setPx_fields (b : RawBillInfo) (pt v : String) :
    (setPx b pt v).is_ours = b.is_ours ∧
    (setPx b pt v).is_rectification = b.is_rectification ∧
    (setPx b pt v).billed_amount_0 = b.billed_amount_0 ∧
    (setPx b pt v).billed_amount_1 = b.billed_amount_1 ∧
    (setPx b pt v).billed_power_capacity = b.billed_power_capacity := by
  unfold setPx
  repeat' split
  all_goals exact ⟨rfl, rfl, rfl, rfl, rfl⟩

/-- An invariant preserved by every accepted step survives `foldE` on lines
that all satisfy the side condition. -/
theorem foldE_inv_of (f : RawBillInfo → String → Except Unit RawBillInfo)
    (P : RawBillInfo → Prop) (Q : String → Prop)
    (hf : ∀ b l b2, f b l = Except.ok b2 → Q l → P b → P b2) :
    ∀ lines b b2, foldE f b lines = Except.ok b2 → (∀ l ∈ lines, Q l) → P b → P b2 := by
  intro lines
  induction lines with
  | nil =>
    intro b b2 h _ hP
    unfold foldE at h
    cases h
    exact hP
  | cons l rest ih =>
    intro b b2 h hQ hP
    unfold foldE at h
    cases hstep : f b l with
    | error e => rw [hstep] at h; cases h
    | ok bm =>
      rw [hstep] at h
      exact ih bm b2 h (fun x hx => hQ x (by simp [hx]))
        (hf b l bm hstep (hQ l (by simp)) hP)

/-- The pure-`foldl` version of `foldE_inv_of`. -/
theorem foldl_inv_of (f : RawBillInfo → String → RawBillInfo)
    (P : RawBillInfo → Prop) (Q : String → Prop)
    (hf : ∀ b l, Q l → P b → P (f b l)) :
    ∀ (lines : List String) (b : RawBillInfo),
      (∀ l ∈ lines, Q l) → P b → P (lines.foldl f b) := by
  intro lines
  induction lines with
  | nil => intro b _ hP; exact hP
  | cons l rest ih =>
    intro b hQ hP
    rw [List.foldl_cons]
    exact ih (f b l) (fun x hx => hQ x (by simp [hx])) (hf b l (hQ l (by simp)) hP)

/-- Defining equation of `foldE` on a non-empty line list. -/
theorem foldE_cons (f : RawBillInfo → String → Except Unit RawBillInfo)
    (b : RawBillInfo) (line : String) (rest : List String) :
    foldE f b (line :: rest) =
      (match f b line with
       | Except.error e => Except.error e
       | Except.ok b2 => foldE f b2 rest) := rfl

/-- Splitting `foldE` at a list append. -/
theorem foldE_append (f : RawBillInfo → String → Except Unit RawBillInfo) :
    ∀ xs ys b, foldE f b (xs ++ ys) =
      (match foldE f b xs with
       | Except.error e => Except.error e
       | Except.ok bm => foldE f bm ys) := by
  intro xs
  induction xs with
  | nil => intro ys b; rfl
  | cons x rest ih =>
    intro ys b
    rw [List.cons_append, foldE_cons, foldE_cons]
    cases hstep : f b x with
    | error e => rfl
    | ok bm =>
      dsimp only
      exact ih ys bm

/-- The pure Nufri line updates never touch the ownership flag. -/
theorem nufriApply_is_ours (b : RawBillInfo) (line : String) :
    (nufriApply b line).is_ours = b.is_ours := by
  unfold nufriApply
  repeat' split
  all_goals try rfl
  all_goals exact (setPx_fields _ _ _).1

/-- A line without the ownership marker cannot set the Nufri ownership
flag. -/
theorem nufriStep_no_marker {b b2 : RawBillInfo} {line : String}
    (h : nufriStep b line = Except.ok b2)
    (hm : substrOf "CAMPANILLA" line = false) :
    b2.is_ours = b.is_ours := by
  unfold nufriStep at h
  rw [if_neg (by simp [hm])] at h
  repeat' split at h
  all_goals cases h
  all_goals try rfl
  all_goals exact nufriApply_is_ours _ _

/-- A line without the ownership marker cannot set the Total ownership
flag. -/
theorem totalStep_no_marker {b b2 : RawBillInfo} {line : String}
    (h : totalStep b line = Except.ok b2)
    (hm : substrOf "CAMPANILLA" line = false) :
    b2.is_ours = b.is_ours := by
  unfold totalStep at h
  rw [if_neg (by simp [hm])] at h
  repeat' split at h
  all_goals cases h
  all_goals rfl

/-- A line without the ownership marker cannot set the Endesa ownership
flag. -/
theorem endesaStep1_no_marker (b : RawBillInfo) (line : String)
    (hm : substrOf "CAMPANILLA" line = false) :
    (endesaStep1 b line).is_ours = b.is_ours := by
  unfold endesaStep1
  rw [if_neg (by simp [hm])]
  repeat' split
  all_goals rfl

/-- The Endesa page-2 scan never touches the ownership flag. -/
theorem endesaStep2_ours (b : RawBillInfo) (line : String) :
    (endesaStep2 b line).is_ours = b.is_ours := by
  unfold endesaStep2
  repeat' split
  all_goals try rfl
  all_goals exact (setPx_fields _ _ _).1

/-- The Endesa page-3 scan never touches the ownership flag. -/
theorem endesaStep3_ours (b : RawBillInfo) (line : String) :
    (endesaStep3 b line).is_ours = b.is_ours := by
  unfold endesaStep3
  repeat' split
  all_goals try rfl
  all_goals exact (setPx_fields _ _ _).1

/-- The Total page-2 scan never touches the ownership flag. -/
theorem totalStep2_ours (b : RawBillInfo) (line : String) :
    (totalStep2 b line).is_ours = b.is_ours := by
  unfold totalStep2
  repeat' split
  all_goals try rfl
  all_goals exact (setPx_fields _ _ _).1

/-- `getPage` agrees with `getD` when it succeeds. -/
theorem getPage_getD {pages : List String} {i : Nat} {p : String}
    (h : getPage pages i = Except.ok p) : p = pages.getD i "" := by
  unfold getPage at h
  cases hg : pages[i]? with
  | none => rw [hg] at h; cases h
  | some q =>
    rw [hg] at h
    cases h
    simp [List.getD, hg]

/-- Without the ownership marker on page 1, the Nufri extractor never
returns a record. -/
theorem extract_nufri_no_marker (pages : List String)
    (hm : ∀ l ∈ splitLines (pages.getD 0 ""), substrOf "CAMPANILLA" l = false) :
    extract_nufri_bill pages = Except.ok none ∨
      extract_nufri_bill pages = Except.error () := by
  unfold extract_nufri_bill
  cases hp : getPage pages 0 with
  | error e => exact Or.inr rfl
  | ok p0 =>
    dsimp only
    cases hf : foldE nufriStep get_default_bill_info (splitLines p0) with
    | error e => exact Or.inr rfl
    | ok bfin =>
      dsimp only
      have hours : bfin.is_ours = false := by
        have hinv := foldE_inv_of nufriStep (fun b => b.is_ours = false)
          (fun l => substrOf "CAMPANILLA" l = false)
          (fun b l b2 hs hq hP => by
            show b2.is_ours = false
            rw [nufriStep_no_marker hs hq]
            exact hP)
          (splitLines p0) get_default_bill_info bfin hf
          (by rw [getPage_getD hp]; exact hm) rfl
        exact hinv
      rw [if_pos hours]
      exact Or.inl rfl

/-- Without the ownership marker on page 1, the Total extractor never
returns a record. -/
theorem extract_total_no_marker (pages : List String)
    (hm : ∀ l ∈ splitLines (pages.getD 0 ""), substrOf "CAMPANILLA" l = false) :
    extract_total_bill pages = Except.ok none ∨
      extract_total_bill pages = Except.error () := by
  unfold extract_total_bill
  cases hp : getPage pages 0 with
  | error e => exact Or.inr rfl
  | ok p0 =>
    dsimp only
    cases hf : foldE totalStep get_default_bill_info (splitLines p0) with
    | error e => exact Or.inr rfl
    | ok b1 =>
      dsimp only
      cases hp1 : getPage pages 1 with
      | error e => exact Or.inr rfl
      | ok p1 =>
        dsimp only
        have h1 : b1.is_ours = false := by
          have hinv := foldE_inv_of totalStep (fun b => b.is_ours = false)
            (fun l => substrOf "CAMPANILLA" l = false)
            (fun b l b2 hs hq hP => by
              show b2.is_ours = false
              rw [totalStep_no_marker hs hq]
              exact hP)
            (splitLines p0) get_default_bill_info b1 hf
            (by rw [getPage_getD hp]; exact hm) rfl
          exact hinv
        have h2 : ((splitLines p1).foldl totalStep2 b1).is_ours = false := by
          have hinv := foldl_inv_of totalStep2 (fun b => b.is_ours = false)
            (fun _ => True)
            (fun b l _ hP => by
              show (totalStep2 b l).is_ours = false
              rw [totalStep2_ours]
              exact hP)
            (splitLines p1) b1 (fun _ _ => trivial) h1
          exact hinv
        rw [if_pos h2]
        exact Or.inl rfl

/-- Without the ownership marker on page 1, the Endesa extractor never
returns a record. -/
theorem extract_endesa_no_marker (pages : List String)
    (hm : ∀ l ∈ splitLines (pages.getD 0 ""), substrOf "CAMPANILLA" l = false) :
    extract_endesa_bill pages = Except.ok none ∨
      extract_endesa_bill pages = Except.error () := by
  unfold extract_endesa_bill
  cases hp : getPage pages 0 with
  | error e => exact Or.inr rfl
  | ok p0 =>
    dsimp only
    cases hp1 : getPage pages 1 with
    | error e => exact Or.inr rfl
    | ok p1 =>
      dsimp only
      have h1 : ((splitLines p0).foldl endesaStep1 get_default_bill_info).is_ours = false := by
        have hinv := foldl_inv_of endesaStep1 (fun b => b.is_ours = false)
          (fun l => substrOf "CAMPANILLA" l = false)
          (fun b l hq hP => by
            show (endesaStep1 b l).is_ours = false
            rw [endesaStep1_no_marker b l hq]
            exact hP)
          (splitLines p0) get_default_bill_info
          (by rw [getPage_getD hp]; exact hm) rfl
        exact hinv
      have h2 : ((splitLines p1).foldl endesaStep2
          ((splitLines p0).foldl endesaStep1 get_default_bill_info)).is_ours = false := by
        have hinv := foldl_inv_of endesaStep2 (fun b => b.is_ours = false) (fun _ => True)
          (fun b l _ hP => by
            show (endesaStep2 b l).is_ours = false
            rw [endesaStep2_ours]
            exact hP)
          (splitLines p1) _ (fun _ _ => trivial) h1
        exact hinv
      set b2 := (splitLines p1).foldl endesaStep2
        ((splitLines p0).foldl endesaStep1 get_default_bill_info) with hb2
      by_cases hP1 : b2.P1.isNone = true
      · rw [if_pos hP1]
        by_cases hlen : pages.length > 2
        · rw [if_pos hlen]
          have h3 : ((splitLines (pages.getD 2 "")).foldl endesaStep3 b2).is_ours = false := by
            have hinv := foldl_inv_of endesaStep3 (fun b => b.is_ours = false) (fun _ => True)
              (fun b l _ hP => by
              show (endesaStep3 b l).is_ours = false
              rw [endesaStep3_ours]
              exact hP)
              (splitLines (pages.getD 2 "")) b2 (fun _ _ => trivial) h2
            exact hinv
          rw [if_pos h3]
          exact Or.inl rfl
        · rw [if_neg hlen, if_pos h2]
          exact Or.inl rfl
      · rw [if_neg hP1, if_pos h2]
        exact Or.inl rfl

/-- Claim C6, counterexample: on a file whose page-1 text lacks the
ownership marker the claim expects the extractor to return a record with
the ownership flag false; the Nufri extractor instead returns `None`
itself. -/
theorem C6_counterexample :
    ¬ ∃ r, extract_nufri_bill ["x"] = Except.ok (some r) ∧ r.is_ours = false := by
  rintro ⟨r, hr, _⟩
  rw [show extract_nufri_bill ["x"] = Except.ok none from rfl] at hr
  cases hr

/-- Claim C6, amended: for every input whose page-1 text lacks the fixed
customer-identifying ownership marker, the extractor itself returns no
record (either the graceful `None` or an exception on a malformed line) —
the discarding happens inside the extractor, not in the caller; consequently
no record is emitted for such a file. -/
theorem C6_no_marker_no_record :
    (∀ pages, (∀ l ∈ splitLines (pages.getD 0 ""), substrOf "CAMPANILLA" l = false) →
      extract_nufri_bill pages = Except.ok none ∨
        extract_nufri_bill pages = Except.error ()) ∧
    (∀ pages, (∀ l ∈ splitLines (pages.getD 0 ""), substrOf "CAMPANILLA" l = false) →
      extract_total_bill pages = Except.ok none ∨
        extract_total_bill pages = Except.error ()) ∧
    (∀ pages, (∀ l ∈ splitLines (pages.getD 0 ""), substrOf "CAMPANILLA" l = false) →
      extract_endesa_bill pages = Except.ok none ∨
        extract_endesa_bill pages = Except.error ()) :=
  ⟨extract_nufri_no_marker, extract_total_no_marker, extract_endesa_no_marker⟩

/-- Claim C6, witness: a concrete marker-less file is dropped by the Nufri
extractor. -/
theorem C6_witness :
    extract_nufri_bill ["x"] = Except.ok none ∨
      extract_nufri_bill ["x"] = Except.error () :=
  C6_no_marker_no_record.1 ["x"] (by decide)

theorem isSome_of_not_isNone {α : Type} {o : Option α} (h : ¬ o.isNone = true) :
    o.isSome = true := by
  cases o with
  | none => exact absurd rfl h
  | some v => rfl

/-- Claim C9: every record any of the three extractors returns has the
ownership flag set and a `P1` tariff entry — the extractors' final gates
enforce both before returning. -/
theorem C9_extractor_invariants :
    (∀ pages r, extract_nufri_bill pages = Except.ok (some r) →
      r.is_ours = true ∧ r.P1.isSome = true) ∧
    (∀ pages r, extract_total_bill pages = Except.ok (some r) →
      r.is_ours = true ∧ r.P1.isSome = true) ∧
    (∀ pages r, extract_endesa_bill pages = Except.ok (some r) →
      r.is_ours = true ∧ r.P1.isSome = true) := by
  refine ⟨?_, ?_, ?_⟩
  · intro pages r h
    unfold extract_nufri_bill at h
    cases hp : getPage pages 0 with
    | error e => rw [hp] at h; cases h
    | ok p0 =>
      rw [hp] at h
      dsimp only at h
      cases hf : foldE nufriStep get_default_bill_info (splitLines p0) with
      | error e => rw [hf] at h; cases h
      | ok bfin =>
        rw [hf] at h
        dsimp only at h
        split at h
        · cases h
        · split at h
          · cases h
          · rename_i h1 h2
            cases h
            exact ⟨by simpa using h1, isSome_of_not_isNone h2⟩
  · intro pages r h
    unfold extract_total_bill at h
    cases hp : getPage pages 0 with
    | error e => rw [hp] at h; cases h
    | ok p0 =>
      rw [hp] at h
      dsimp only at h
      cases hf : foldE totalStep get_default_bill_info (splitLines p0) with
      | error e => rw [hf] at h; cases h
      | ok b1 =>
        rw [hf] at h
        dsimp only at h
        cases hp1 : getPage pages 1 with
        | error e => rw [hp1] at h; cases h
        | ok p1 =>
          rw [hp1] at h
          dsimp only at h
          split at h
          · cases h
          · split at h
            · cases h
            · rename_i h1 h2
              cases h
              exact ⟨by simpa using h1, isSome_of_not_isNone h2⟩
  · intro pages r h
    unfold extract_endesa_bill at h
    cases hp : getPage pages 0 with
    | error e => rw [hp] at h; cases h
    | ok p0 =>
      rw [hp] at h
      dsimp only at h
      cases hp1 : getPage pages 1 with
      | error e => rw [hp1] at h; cases h
      | ok p1 =>
        rw [hp1] at h
        dsimp only at h
        by_cases hq : ((splitLines p1).foldl endesaStep2
            ((splitLines p0).foldl endesaStep1 get_default_bill_info)).P1.isNone = true
        · rw [if_pos hq] at h
          by_cases hlen : pages.length > 2
          · rw [if_pos hlen] at h
            repeat' split at h
            all_goals cases h
            all_goals rename_i h1 h2
            all_goals exact ⟨by simpa using h1, isSome_of_not_isNone h2⟩
          · rw [if_neg hlen] at h
            repeat' split at h
            all_goals cases h
        · rw [if_neg hq] at h
          repeat' split at h
          all_goals cases h
          all_goals rename_i h1
          all_goals exact ⟨by simpa using h1, isSome_of_not_isNone hq⟩

/-- A complete one-page Nufri bill used as concrete input below. -/
def nufriPagesW : List String := [String.intercalate "\n" [
  "CAMPANILLA SL",
  "Nº de Factura: AB 12 otra",
  "Fecha de Factura: 01/02/2023",
  "Periodo de Consumo: 01/01/2023 - 31/01/2023",
  "Por Potencia Contratada 1,00 €",
  "Por Energía Consumida 2,00 €",
  "Total Factura 3,00 €",
  "CUPS: ES123",
  "P1 1 2 3 4 5 6",
  "P2 1 2 4 4 5 6",
  "P3 1 2 5 4 5 6"]]

/-- Claim C9, witness: the gates hold on a concrete extracted record. -/
theorem C9_witness :
    ∃ r, extract_nufri_bill nufriPagesW = Except.ok (some r) ∧
      r.is_ours = true ∧ r.P1.isSome = true :=
  ⟨_, rfl, C9_extractor_invariants.1 nufriPagesW _ rfl⟩

/-- The pure Nufri line updates keep the two captured totals equal. -/
theorem nufriApply_amounts (b : RawBillInfo) (line : String)
    (h : b.billed_amount_0 = b.billed_amount_1) :
    (nufriApply b line).billed_amount_0 = (nufriApply b line).billed_amount_1 := by
  unfold nufriApply
  repeat' split
  all_goals try exact h
  all_goals try rfl
  all_goals dsimp only
  all_goals rw [(setPx_fields _ _ _).2.2.1, (setPx_fields _ _ _).2.2.2.1]
  all_goals exact h

/-- The pure Nufri line updates never touch the rectification flag. -/
theorem nufriApply_rect (b : RawBillInfo) (line : String) :
    (nufriApply b line).is_rectification = b.is_rectification := by
  unfold nufriApply
  repeat' split
  all_goals try rfl
  all_goals exact (setPx_fields _ _ _).2.1

/-- A Nufri line keeps the two captured totals equal. -/
theorem nufriStep_amounts {b b2 : RawBillInfo} {line : String}
    (h : nufriStep b line = Except.ok b2)
    (hab : b.billed_amount_0 = b.billed_amount_1) :
    b2.billed_amount_0 = b2.billed_amount_1 := by
  unfold nufriStep at h
  repeat' split at h
  all_goals cases h
  all_goals try exact hab
  all_goals exact nufriApply_amounts _ _ hab

/-- A Nufri line never touches the rectification flag. -/
theorem nufriStep_rect {b b2 : RawBillInfo} {line : String}
    (h : nufriStep b line = Except.ok b2) :
    b2.is_rectification = b.is_rectification := by
  unfold nufriStep at h
  repeat' split at h
  all_goals cases h
  all_goals try rfl
  all_goals exact nufriApply_rect _ _

/-- A Total page-1 line keeps the two captured totals equal. -/
theorem totalStep_amounts {b b2 : RawBillInfo} {line : String}
    (h : totalStep b line = Except.ok b2)
    (hab : b.billed_amount_0 = b.billed_amount_1) :
    b2.billed_amount_0 = b2.billed_amount_1 := by
  unfold totalStep at h
  repeat' split at h
  all_goals cases h
  all_goals first
    | exact hab
    | rfl

/-- A Total page-1 line never touches the rectification flag. -/
theorem totalStep_rect {b b2 : RawBillInfo} {line : String}
    (h : totalStep b line = Except.ok b2) :
    b2.is_rectification = b.is_rectification := by
  unfold totalStep at h
  repeat' split at h
  all_goals cases h
  all_goals rfl

/-- A Total page-2 line keeps the two captured totals equal and never
touches the rectification flag. -/
theorem totalStep2_amounts_rect (b : RawBillInfo) (line : String) :
    ((totalStep2 b line).billed_amount_0 = (totalStep2 b line).billed_amount_1 ↔
      b.billed_amount_0 = b.billed_amount_1) ∧
    (totalStep2 b line).is_rectification = b.is_rectification := by
  unfold totalStep2 setPx
  repeat' split
  all_goals exact ⟨Iff.rfl, rfl⟩

/-- A record out of the Nufri extractor has equal captured totals and a
clear rectification flag. -/
theorem extract_nufri_amounts (pages : List String) (r : RawBillInfo)
    (h : extract_nufri_bill pages = Except.ok (some r)) :
    r.billed_amount_0 = r.billed_amount_1 ∧ r.is_rectification = false := by
  unfold extract_nufri_bill at h
  cases hp : getPage pages 0 with
  | error e => rw [hp] at h; cases h
  | ok p0 =>
    rw [hp] at h
    dsimp only at h
    cases hf : foldE nufriStep get_default_bill_info (splitLines p0) with
    | error e => rw [hf] at h; cases h
    | ok bfin =>
      rw [hf] at h
      dsimp only at h
      have hinv := foldE_inv_of nufriStep
        (fun b => b.billed_amount_0 = b.billed_amount_1 ∧ b.is_rectification = false)
        (fun _ => True)
        (fun b l b2 hs _ hP => ⟨nufriStep_amounts hs hP.1,
          by rw [nufriStep_rect hs]; exact hP.2⟩)
        (splitLines p0) get_default_bill_info bfin hf (fun _ _ => trivial) ⟨rfl, rfl⟩
      split at h
      · cases h
      · split at h
        · cases h
        · cases h
          exact hinv

/-- A record out of the Total extractor has equal captured totals and a
clear rectification flag. -/
theorem extract_total_amounts (pages : List String) (r : RawBillInfo)
    (h : extract_total_bill pages = Except.ok (some r)) :
    r.billed_amount_0 = r.billed_amount_1 ∧ r.is_rectification = false := by
  unfold extract_total_bill at h
  cases hp : getPage pages 0 with
  | error e => rw [hp] at h; cases h
  | ok p0 =>
    rw [hp] at h
    dsimp only at h
    cases hf : foldE totalStep get_default_bill_info (splitLines p0) with
    | error e => rw [hf] at h; cases h
    | ok b1 =>
      rw [hf] at h
      dsimp only at h
      cases hp1 : getPage pages 1 with
      | error e => rw [hp1] at h; cases h
      | ok p1 =>
        rw [hp1] at h
        dsimp only at h
        have hinv1 := foldE_inv_of totalStep
          (fun b => b.billed_amount_0 = b.billed_amount_1 ∧ b.is_rectification = false)
          (fun _ => True)
          (fun b l b2 hs _ hP => ⟨totalStep_amounts hs hP.1,
            by rw [totalStep_rect hs]; exact hP.2⟩)
          (splitLines p0) get_default_bill_info b1 hf (fun _ _ => trivial) ⟨rfl, rfl⟩
        have hinv2 := foldl_inv_of totalStep2
          (fun b => b.billed_amount_0 = b.billed_amount_1 ∧ b.is_rectification = false)
          (fun _ => True)
          (fun b l _ hP => ⟨((totalStep2_amounts_rect b l).1).mpr hP.1,
            by rw [(totalStep2_amounts_rect b l).2]; exact hP.2⟩)
          (splitLines p1) b1 (fun _ _ => trivial) hinv1
        split at h
        · cases h
        · split at h
          · cases h
          · cases h
            exact hinv2

/-- The sanitizer leaves the rectification flag clear when the two captured
totals agree and the raw flag was clear. -/
theorem sanitize_rect_of_eq {r : RawBillInfo} {b : BillRecord}
    (h : sanitize_bill r = Except.ok (some b))
    (ham : r.billed_amount_0 = r.billed_amount_1)
    (hrect : r.is_rectification = false) :
    b.is_rectification = false := by
  unfold sanitize_bill at h
  rw [ham] at h
  repeat' split at h
  all_goals cases h
  dsimp only
  unfold rectFlag
  simp_all

/-- Claim C10: the Nufri and Total extractors capture both total-amount
fields from the same source line, so they are always equal and a sanitized
record from these two providers is never marked as a rectification. -/
theorem C10_no_rectification :
    (∀ pages r b, extract_nufri_bill pages = Except.ok (some r) →
      sanitize_bill r = Except.ok (some b) → b.is_rectification = false) ∧
    (∀ pages r b, extract_total_bill pages = Except.ok (some r) →
      sanitize_bill r = Except.ok (some b) → b.is_rectification = false) :=
  ⟨fun pages r b he hs =>
    sanitize_rect_of_eq hs (extract_nufri_amounts pages r he).1
      (extract_nufri_amounts pages r he).2,
   fun pages r b he hs =>
    sanitize_rect_of_eq hs (extract_total_amounts pages r he).1
      (extract_total_amounts pages r he).2⟩

/-- Claim C10, witness: a concrete Nufri bill flows through extraction and
sanitization with the rectification flag clear. -/
theorem C10_witness :
    ∃ r b, extract_nufri_bill nufriPagesW = Except.ok (some r) ∧
      sanitize_bill r = Except.ok (some b) ∧ b.is_rectification = false :=
  ⟨_, _, rfl, rfl, C10_no_rectification.1 nufriPagesW _ _ rfl rfl⟩

/-- A line of the Total page-1 scan reaches and takes the
`startswith('Potencia ')` branch: none of the four earlier substring
triggers fire. -/
def totalPotTrig (line : String) : Bool :=
  !substrOf "CAMPANILLA" line && !substrOf "Nº Factura" line &&
  !substrOf "Fecha emisión factura:" line &&
  !substrOf "Periodo de facturación:" line &&
  pyStartsWith line "Potencia "

/-- A line of the Total page-1 scan reaches and takes the
`startswith('TOTAL ')` branch. -/
def totalTotTrig (line : String) : Bool :=
  !substrOf "CAMPANILLA" line && !substrOf "Nº Factura" line &&
  !substrOf "Fecha emisión factura:" line &&
  !substrOf "Periodo de facturación:" line &&
  !pyStartsWith line "Potencia " && !pyStartsWith line "Energía " &&
  pyStartsWith line "TOTAL "

/-- A line of the Endesa page-1 scan reaches and takes the
`startswith('Potencia ')` branch. -/
def endesaPotTrig (line : String) : Bool :=
  !substrOf "CAMPANILLA" line &&
  !(substrOf "Nº factura:" line || substrOf "Nº de factura:" line ||
    substrOf "Nºfactura:" line) &&
  !(substrOf "Fecha emisión factura:" line ||
    substrOf "Fechaemisiónfactura:" line) &&
  !(substrOf "Periodo de facturación:" line ||
    substrOf "Periododefacturación" line) &&
  pyStartsWith line "Potencia "

/-- A capacity-trigger line of the Total page-1 scan overwrites the
capacity field with the whole line. -/
theorem totalStep_pot_set (b : RawBillInfo) (line : String)
    (ht : totalPotTrig line = true) :
    totalStep b line =
      Except.ok { b with billed_power_capacity := some line } := by
  unfold totalPotTrig at ht
  simp only [Bool.and_eq_true, Bool.not_eq_true'] at ht
  obtain ⟨⟨⟨⟨h1, h2⟩, h3⟩, h4⟩, h5⟩ := ht
  unfold totalStep
  rw [h1, h2, h3, h4, h5]
  rfl

/-- A non-capacity-trigger line of the Total page-1 scan leaves the
capacity field alone. -/
theorem totalStep_pot_keep {b b2 : RawBillInfo} {line : String}
    (ht : totalPotTrig line = false)
    (h : totalStep b line = Except.ok b2) :
    b2.billed_power_capacity = b.billed_power_capacity := by
  unfold totalStep at h
  repeat' split at h
  all_goals cases h
  all_goals try rfl
  rename_i h1 h2 h3 h4 h5
  exfalso
  have htrig : totalPotTrig line = true := by
    unfold totalPotTrig
    rw [Bool.eq_false_iff.mpr h1, Bool.eq_false_iff.mpr h2,
      Bool.eq_false_iff.mpr h3, Bool.eq_false_iff.mpr h4, h5]
    rfl
  rw [htrig] at ht
  cases ht

/-- A `TOTAL `-trigger line of the Total page-1 scan overwrites BOTH total
fields with the whole line. -/
theorem totalStep_tot_set (b : RawBillInfo) (line : String)
    (ht : totalTotTrig line = true) :
    totalStep b line =
      Except.ok { b with billed_amount_0 := some line, billed_amount_1 := some line } := by
  unfold totalTotTrig at ht
  simp only [Bool.and_eq_true, Bool.not_eq_true'] at ht
  obtain ⟨⟨⟨⟨⟨⟨h1, h2⟩, h3⟩, h4⟩, h5⟩, h6⟩, h7⟩ := ht
  unfold totalStep
  rw [h1, h2, h3, h4, h5, h6, h7]
  rfl

/-- A capacity-trigger line of the Endesa page-1 scan overwrites the
capacity field with the whole line. -/
theorem endesaStep1_pot_set (b : RawBillInfo) (line : String)
    (ht : endesaPotTrig line = true) :
    endesaStep1 b line = { b with billed_power_capacity := some line } := by
  unfold endesaPotTrig at ht
  simp only [Bool.and_eq_true, Bool.not_eq_true'] at ht
  obtain ⟨⟨⟨⟨h1, h2⟩, h3⟩, h4⟩, h5⟩ := ht
  unfold endesaStep1
  rw [h1, h2, h3, h4, h5]
  rfl

/-- A non-capacity-trigger line of the Endesa page-1 scan leaves the
capacity field alone. -/
theorem endesaStep1_pot_keep (b : RawBillInfo) (line : String)
    (ht : endesaPotTrig line = false) :
    (endesaStep1 b line).billed_power_capacity = b.billed_power_capacity := by
  unfold endesaStep1
  repeat' split
  all_goals try rfl
  rename_i h1 h2 h3 h4 h5
  exfalso
  have htrig : endesaPotTrig line = true := by
    unfold endesaPotTrig
    rw [Bool.eq_false_iff.mpr h1, Bool.eq_false_iff.mpr h2,
      Bool.eq_false_iff.mpr h3, Bool.eq_false_iff.mpr h4, h5]
    rfl
  rw [htrig] at ht
  cases ht

/-- A Total bill whose page 1 holds two capacity-trigger lines. -/
def c7pages : List String := [String.intercalate "\n" [
  "CAMPANILLA SL",
  "Potencia A",
  "Potencia B"],
  "P1 1 2 3 4 5 6 7 8 9"]

/-- Claim C7, counterexample: on a page with two `Potencia ` lines the
Total extractor keeps the SECOND one - the first matching line does not
win, an earlier value is overwritten. -/
theorem C7_counterexample :
    ¬ (∀ r, extract_total_bill c7pages = Except.ok (some r) →
        r.billed_power_capacity = some "Potencia A") := fun hall =>
  absurd (hall _ rfl) (by decide)

/-- Claim C7, amended: within a single pass each trigger assignment
overwrites its field unconditionally, so the LAST matching line of a pass
wins; moreover the Total variant's `TOTAL ` trigger populates two fields
(both captured totals) at once, not exactly one. -/
theorem C7_last_match_wins :
    (∀ (l1 l2 : List String) (x : String) (b0 bf : RawBillInfo),
      totalPotTrig x = true → (∀ l ∈ l2, totalPotTrig l = false) →
      foldE totalStep b0 (l1 ++ x :: l2) = Except.ok bf →
      bf.billed_power_capacity = some x) ∧
    (∀ (l1 l2 : List String) (x : String) (b0 : RawBillInfo),
      endesaPotTrig x = true → (∀ l ∈ l2, endesaPotTrig l = false) →
      (List.foldl endesaStep1 b0 (l1 ++ x :: l2)).billed_power_capacity =
        some x) ∧
    (∀ (b : RawBillInfo) (line : String), totalTotTrig line = true →
      totalStep b line =
        Except.ok { b with billed_amount_0 := some line, billed_amount_1 := some line }) := by
  refine ⟨?_, ?_, totalStep_tot_set⟩
  · intro l1 l2 x b0 bf hx hl2 h
    rw [foldE_append] at h
    cases hm : foldE totalStep b0 l1 with
    | error e => rw [hm] at h; cases h
    | ok bm =>
      rw [hm] at h
      dsimp only at h
      rw [foldE_cons, totalStep_pot_set bm x hx] at h
      dsimp only at h
      exact foldE_inv_of totalStep
        (fun b => b.billed_power_capacity = some x)
        (fun l => totalPotTrig l = false)
        (fun b l b2 hs hQ hP => by
          show b2.billed_power_capacity = some x
          rw [totalStep_pot_keep hQ hs]; exact hP)
        l2 _ bf h hl2 rfl
  · intro l1 l2 x b0 hx hl2
    rw [List.foldl_append, List.foldl_cons, endesaStep1_pot_set _ _ hx]
    exact foldl_inv_of endesaStep1
      (fun b => b.billed_power_capacity = some x)
      (fun l => endesaPotTrig l = false)
      (fun b l hQ hP => by
        show (endesaStep1 b l).billed_power_capacity = some x
        rw [endesaStep1_pot_keep b l hQ]; exact hP)
      l2 _ hl2 rfl

/-- Claim C7, witness: on a concrete two-trigger page-1 scan the second
capacity line is the one retained. -/
theorem C7_witness :
    totalPotTrig "Potencia B" = true ∧
    ∃ bf, foldE totalStep get_default_bill_info
        (["Potencia A"] ++ "Potencia B" :: []) = Except.ok bf ∧
      bf.billed_power_capacity = some "Potencia B" :=
  ⟨by decide, _, rfl,
    C7_last_match_wins.1 ["Potencia A"] [] "Potencia B"
      get_default_bill_info _ (by decide) (by decide) rfl⟩

/-- An extractor as the dispatcher sees it: pages in, an optional raw
record or an exception out. -/
abbrev Extractor : Type := List String → Except Unit (Option RawBillInfo)

/-- The `dispatchers` configuration: (marker, extractor) pairs in the
configured iteration order.  In the embedding the extractors are the Lean
functions themselves, so the source's `globals()` resolvability check
(which raises `ValueError` for an unresolvable extractor name before any
marker test) can never fire and is omitted. -/
abbrev DispatchTable : Type := List (String × Extractor)

/-- The `for dispatcher, extractor in dispatchers.items()` loop of
`extract_dispatcher`: first marker contained in the page-1 text wins, no
match falls through to `return None`. -/
def dispatchLoop (pages : List String) (p0 : String) :
    DispatchTable → Except Unit (Option RawBillInfo)
  | [] => Except.ok none
  | (marker, extractor) :: rest =>
    if substrOf marker p0 then extractor pages
    else dispatchLoop pages p0 rest

/-- `extract_dispatcher(dispatchers, file)`: read the page-1 text (a PDF
with no pages raises `IndexError`) and run the marker loop. -/
def extract_dispatcher (dispatchers : DispatchTable) (pages : List String) :
    Except Unit (Option RawBillInfo) :=
  match getPage pages 0 with
  | Except.error e => Except.error e
  | Except.ok p0 => dispatchLoop pages p0 dispatchers

/-- Pairs whose marker does not occur in the page-1 text are skipped. -/
theorem dispatchLoop_skip (pages : List String) (p0 : String) :
    ∀ (l1 rest : DispatchTable), (∀ p ∈ l1, substrOf p.1 p0 = false) →
      dispatchLoop pages p0 (l1 ++ rest) = dispatchLoop pages p0 rest := by
  intro l1
  induction l1 with
  | nil => intro rest _; rfl
  | cons p l ih =>
    intro rest hall
    obtain ⟨marker, extractor⟩ := p
    rw [List.cons_append]
    show (if substrOf marker p0 = true then extractor pages
      else dispatchLoop pages p0 (l ++ rest)) = dispatchLoop pages p0 rest
    rw [hall (marker, extractor) (by simp)]
    exact ih rest (fun q hq => hall q (by simp [hq]))

/-- Claim C2: the dispatcher runs the first configured pair whose marker is
a substring of the page-1 text - an earlier-configured matching marker
beats any later one - and yields no record when no marker matches, letting
batch processing continue with the next file. -/
theorem C2_dispatcher_first_match :
    (∀ (l1 : DispatchTable) (m : String) (e : Extractor)
        (l2 : DispatchTable) (pages : List String) (p0 : String),
      getPage pages 0 = Except.ok p0 →
      (∀ p ∈ l1, substrOf p.1 p0 = false) →
      substrOf m p0 = true →
      extract_dispatcher (l1 ++ (m, e) :: l2) pages = e pages) ∧
    (∀ (ds : DispatchTable) (pages : List String) (p0 : String),
      getPage pages 0 = Except.ok p0 →
      (∀ p ∈ ds, substrOf p.1 p0 = false) →
      extract_dispatcher ds pages = Except.ok none) := by
  constructor
  · intro l1 m e l2 pages p0 hp h1 hm
    unfold extract_dispatcher
    rw [hp]
    dsimp only
    rw [dispatchLoop_skip pages p0 l1 ((m, e) :: l2) h1]
    unfold dispatchLoop
    rw [hm]
    rfl
  · intro ds pages p0 hp hall
    unfold extract_dispatcher
    rw [hp]
    dsimp only
    have h := dispatchLoop_skip pages p0 ds [] hall
    rw [List.append_nil] at h
    exact h

/-- Claim C2, witness: with two matching markers configured the
earlier-configured extractor runs. -/
theorem C2_witness :
    extract_dispatcher
      [("ZZZ", extract_total_bill), ("CAMPANILLA", extract_nufri_bill),
       ("CAMP", extract_endesa_bill)] ["CAMPANILLA y mas"] =
      extract_nufri_bill ["CAMPANILLA y mas"] :=
  C2_dispatcher_first_match.1 [("ZZZ", extract_total_bill)] "CAMPANILLA"
    extract_nufri_bill [("CAMP", extract_endesa_bill)] ["CAMPANILLA y mas"]
    "CAMPANILLA y mas" rfl (by decide) (by decide)

/-- `os.path.basename`: the part of the path after the last `/`. -/
def basename (file : String) : String := lastD (pySplit file '/') ""

/-- The `bills` aggregate: a Python dict of dicts in insertion order,
modelled as nested association lists. -/
abbrev Bills : Type := List (String × List (String × BillRecord))

/-- Python dict assignment `d[k] = v`: replace in place when the key
exists, else append. -/
def updateA {α : Type} : List (String × α) → String → α → List (String × α)
  | [], k, v => [(k, v)]
  | (k0, v0) :: rest, k, v =>
    if k0 = k then (k, v) :: rest else (k0, v0) :: updateA rest k v

/-- Python dict lookup, also serving the `k in d` membership test. -/
def lookupA {α : Type} : List (String × α) → String → Option α
  | [], _ => none
  | (k0, v0) :: rest, k => if k0 = k then some v0 else lookupA rest k

/-- `if cups not in bills: bills[cups] = \x7b\x7d` followed by
`bills[cups][bill_id] = bill_info`. -/
def insertBill (bills : Bills) (cups bill_id : String) (b : BillRecord) :
    Bills :=
  match lookupA bills cups with
  | none => updateA bills cups [(bill_id, b)]
  | some inner => updateA bills cups (updateA inner bill_id b)

/-- Nested lookup in the aggregate. -/
def lookupBills (bills : Bills) (cups bill_id : String) : Option BillRecord :=
  match lookupA bills cups with
  | none => none
  | some inner => lookupA inner bill_id

/-- The per-file body of the batch loop: dispatch (a falsy result skips the
file), sanitize (likewise), attach `basename(file)` and store the record
under `bills[cups][bill_id]`. -/
def processFile (dispatchers : DispatchTable) (bills : Bills)
    (f : String × List String) : Except Unit Bills :=
  match extract_dispatcher dispatchers f.2 with
  | Except.error e => Except.error e
  | Except.ok none => Except.ok bills
  | Except.ok (some raw) =>
    match sanitize_bill raw with
    | Except.error e => Except.error e
    | Except.ok none => Except.ok bills
    | Except.ok (some b) =>
      Except.ok (insertBill bills b.cups b.bill_id
        { b with file := some (basename f.1) })

/-- The `for file in files` batch loop. -/
def goBills (dispatchers : DispatchTable) :
    List (String × List String) → Bills → Except Unit Bills
  | [], bills => Except.ok bills
  | f :: rest, bills =>
    match processFile dispatchers bills f with
    | Except.error e => Except.error e
    | Except.ok bills2 => goBills dispatchers rest bills2

/-- The aggregate built by `extract_bill_information` from an empty dict. -/
def extract_bill_information (dispatchers : DispatchTable)
    (files : List (String × List String)) : Except Unit Bills :=
  goBills dispatchers files []

/-- Updating a key makes the subsequent lookup return the new value. -/
theorem lookupA_updateA_self {α : Type} :
    ∀ (l : List (String × α)) (k : String) (v : α),
      lookupA (updateA l k v) k = some v := by
  intro l k v
  induction l with
  | nil => simp [updateA, lookupA]
  | cons p rest ih =>
    obtain ⟨k0, v0⟩ := p
    unfold updateA
    by_cases hk : k0 = k
    · rw [if_pos hk]
      unfold lookupA
      rw [if_pos rfl]
    · rw [if_neg hk]
      unfold lookupA
      rw [if_neg hk]
      exact ih

/-- Storing a record makes the nested lookup under its key return it. -/
theorem lookupBills_insert_self (bills : Bills) (cups bill_id : String)
    (b : BillRecord) :
    lookupBills (insertBill bills cups bill_id b) cups bill_id = some b := by
  unfold insertBill
  cases h : lookupA bills cups with
  | none => simp [lookupBills, lookupA_updateA_self, lookupA]
  | some inner => simp [lookupBills, lookupA_updateA_self]

/-- Defining equation of the batch loop on a non-empty file list. -/
theorem goBills_cons (d : DispatchTable) (f : String × List String)
    (rest : List (String × List String)) (bills : Bills) :
    goBills d (f :: rest) bills =
      (match processFile d bills f with
       | Except.error e => Except.error e
       | Except.ok bills2 => goBills d rest bills2) := rfl

/-- Splitting the batch loop at a list append. -/
theorem goBills_append (d : DispatchTable) :
    ∀ (xs ys : List (String × List String)) (bills : Bills),
      goBills d (xs ++ ys) bills =
        (match goBills d xs bills with
         | Except.error e => Except.error e
         | Except.ok b2 => goBills d ys b2) := by
  intro xs
  induction xs with
  | nil => intro ys bills; rfl
  | cons x rest ih =>
    intro ys bills
    rw [List.cons_append, goBills_cons, goBills_cons]
    cases h : processFile d bills x with
    | error e => rfl
    | ok b2 =>
      dsimp only
      exact ih ys b2

/-- Claim C4: storing under an existing (cups, bill id) key is an
unconditional overwrite, and in a batch run whose last file yields a
sanitized record that record is the one the aggregate retains under its
key, whatever the earlier files stored there. -/
theorem C4_last_write_wins :
    (∀ (bills : Bills) (cups bill_id : String) (b : BillRecord),
      lookupBills (insertBill bills cups bill_id b) cups bill_id = some b) ∧
    (∀ (d : DispatchTable) (files : List (String × List String))
        (f2 : String × List String) (raw2 : RawBillInfo) (b2 : BillRecord)
        (bills : Bills),
      extract_dispatcher d f2.2 = Except.ok (some raw2) →
      sanitize_bill raw2 = Except.ok (some b2) →
      extract_bill_information d (files ++ f2 :: []) = Except.ok bills →
      lookupBills bills b2.cups b2.bill_id =
        some { b2 with file := some (basename f2.1) }) := by
  refine ⟨lookupBills_insert_self, ?_⟩
  intro d files f2 raw2 b2 bills hd hs h
  unfold extract_bill_information at h
  rw [goBills_append] at h
  cases hm : goBills d files [] with
  | error e => rw [hm] at h; cases h
  | ok bmid =>
    rw [hm] at h
    dsimp only at h
    unfold goBills processFile at h
    rw [hd] at h
    dsimp only at h
    rw [hs] at h
    dsimp only at h
    cases h
    exact lookupBills_insert_self bmid _ _ _

/-- Claim C4, witness: two files sharing the (cups, bill id) key - the
later file's record, carrying the later file name, is the retained one. -/
theorem C4_witness :
    ∃ bills raw2 b2,
      extract_dispatcher [("CAMPANILLA", extract_nufri_bill)] nufriPagesW =
        Except.ok (some raw2) ∧
      sanitize_bill raw2 = Except.ok (some b2) ∧
      extract_bill_information [("CAMPANILLA", extract_nufri_bill)]
        ([("a/f1.pdf", nufriPagesW)] ++ ("b/f2.pdf", nufriPagesW) :: []) =
        Except.ok bills ∧
      lookupBills bills b2.cups b2.bill_id =
        some { b2 with file := some (basename "b/f2.pdf") } :=
  ⟨_, _, _, rfl, rfl, rfl,
    C4_last_write_wins.2 [("CAMPANILLA", extract_nufri_bill)]
      [("a/f1.pdf", nufriPagesW)] ("b/f2.pdf", nufriPagesW) _ _ _
      rfl rfl rfl⟩

/-- Defining equation of `parseRepsLast` on a positive count. -/
theorem parseRepsLast_succ (p : List Char → Option (List Char)) (k : Nat)
    (last0 l : List Char) :
    parseRepsLast p (k + 1) last0 l =
      (match p l with
       | none => none
       | some r => parseRepsLast p k (repTok l r) r) := rfl

/-- Parsing `k` repetitions off a concatenation of exactly consumable
tokens takes the first `k` tokens and captures the `k`-th one. -/
theorem parseRepsLast_concat_take (p : List Char → Option (List Char)) :
    ∀ (k : Nat) (toks : List (List Char)) (suffix last0 : List Char),
      k ≤ toks.length →
      (∀ t ∈ toks, ∀ rest, p (t ++ rest) = some rest) →
      parseRepsLast p k last0 (toks.foldr (· ++ ·) suffix) =
        some ((toks.take k).getLastD last0,
          (toks.drop k).foldr (· ++ ·) suffix) := by
  intro k
  induction k with
  | zero => intro toks suffix last0 _ _; rfl
  | succ n ih =>
    intro toks suffix last0 hk h
    cases toks with
    | nil => simp at hk
    | cons t ts =>
      rw [List.foldr_cons, parseRepsLast_succ,
        h t (by simp) (ts.foldr (· ++ ·) suffix)]
      dsimp only
      unfold repTok
      rw [take_append_self,
        ih ts suffix t (by simpa using hk)
          (fun q hq rest => h q (by simp [hq]) rest),
        List.take_succ_cons, List.getLastD_cons, List.drop_succ_cons]

/-- Parsing more repetitions than there are tokens fails when nothing
follows the tokens, since the repetition parser rejects the empty input. -/
theorem parseRepsLast_short (p : List Char → Option (List Char))
    (hp : p [] = none) :
    ∀ (toks : List (List Char)) (k : Nat) (last0 : List Char),
      (∀ t ∈ toks, ∀ rest, p (t ++ rest) = some rest) →
      toks.length < k →
      parseRepsLast p k last0 (toks.foldr (· ++ ·) []) = none := by
  intro toks
  induction toks with
  | nil =>
    intro k last0 _ hk
    cases k with
    | zero => simp at hk
    | succ n => rw [parseRepsLast_succ, List.foldr_nil, hp]
  | cons t ts ih =>
    intro k last0 h hk
    cases k with
    | zero => simp at hk
    | succ n =>
      rw [List.foldr_cons, parseRepsLast_succ,
        h t (by simp) (ts.foldr (· ++ ·) [])]
      dsimp only
      unfold repTok
      rw [take_append_self]
      exact ih n t (fun q hq rest => h q (by simp [hq]) rest)
        (by simpa using hk)

/-- The rightmost-position scan succeeds whenever some suffix position
matches. -/
theorem endesaPvScan_lift : ∀ (pre l : List Char),
    (endesaPvAt l).isSome = true → (endesaPvScan (pre ++ l)).isSome = true := by
  intro pre
  induction pre with
  | nil =>
    intro l h
    rw [List.nil_append]
    cases l with
    | nil => exact absurd h (by decide)
    | cons c r =>
      show (match endesaPvScan r with
        | some x => some x
        | none => endesaPvAt (c :: r)).isSome = true
      cases hs : endesaPvScan r with
      | some x => rfl
      | none => exact h
  | cons a pre ih =>
    intro l h
    rw [List.cons_append]
    show (match endesaPvScan (pre ++ l) with
      | some x => some x
      | none => endesaPvAt (a :: (pre ++ l))).isSome = true
    cases hs : endesaPvScan (pre ++ l) with
    | some x => rfl
    | none => exact absurd (ih l h) (by simp [hs])

/-- Modelled from the spec: a tariff-code row accepted "exactly when the
label is followed by exactly 5 numeric/currency tokens" - the five
repetitions must exhaust the line. -/
def specEndesaPxExact (line : String) : Bool :=
  match line.data with
  | c0 :: p :: c1 :: c2 :: c3 :: c4 :: c5 :: c6 :: q :: r =>
    (c0 = 'P' && px16 p && c1 = ' ' && c2 = '1' && c3 = '.' && c4 = '1' &&
      c5 = '8' && c6 = '.' && px16 q) &&
    (match parseRepsLast parseCurRep 5 [] r with
     | some (_, rest) => rest.isEmpty
     | none => false)
  | _ => false

/-- Claim C8, counterexample: a tariff-code row carrying SIX currency
tokens is not spec-accepted ("exactly 5") yet the pattern, whose end is
not anchored, matches it. -/
theorem C8_counterexample :
    ¬ ((endesaPxMatch "P4 1.18.4 1,00 2,00 3,00 4,00 5,00 6,00").isSome =
      specEndesaPxExact "P4 1.18.4 1,00 2,00 3,00 4,00 5,00 6,00") := by
  decide

/-- Claim C8, amended: the column counts are minima, not exact counts.  An
Endesa tariff-code row is accepted with five well-formed currency tokens
after the label whatever follows them and rejected when fewer tokens
exhaust the line; a Punta/Llano/Valle row is accepted at any position with
five tokens after the keyword; the shared fixed-layout shape (Total 3+6,
Nufri 3+3) is accepted with `k1 + k2` tokens whatever follows and rejected
when fewer exhaust the line; a mismatch yields "no tariff row", never an
error. -/
theorem C8_column_count_minima :
    (∀ (p q : Char) (toks : List (List Char)) (suffix : List Char),
      px16 p = true → px16 q = true → toks.length = 5 →
      (∀ t ∈ toks, ∀ rest, parseCurRep (t ++ rest) = some rest) →
      endesaPxMatch (String.mk ('P' :: p :: ' ' :: '1' :: '.' :: '1' ::
          '8' :: '.' :: q :: toks.foldr (· ++ ·) suffix)) =
        some (String.mk ['P', p], String.mk (toks.getLastD []))) ∧
    (∀ (p q : Char) (toks : List (List Char)),
      (∀ t ∈ toks, ∀ rest, parseCurRep (t ++ rest) = some rest) →
      toks.length < 5 →
      endesaPxMatch (String.mk ('P' :: p :: ' ' :: '1' :: '.' :: '1' ::
          '8' :: '.' :: q :: toks.foldr (· ++ ·) [])) = none) ∧
    (∀ (pre l : List Char) (kw : String) (toks : List (List Char))
        (suffix : List Char),
      pvKeyword l = some (kw, toks.foldr (· ++ ·) suffix) →
      toks.length = 5 →
      (∀ t ∈ toks, ∀ rest, parseCurRep (t ++ rest) = some rest) →
      (endesaPvScan (pre ++ l)).isSome = true) ∧
    (∀ (k1 k2 : Nat) (p : Char) (toks : List (List Char))
        (suffix : List Char),
      px16 p = true → toks.length = k1 + k2 →
      (∀ t ∈ toks, ∀ rest, parseIntRep (t ++ rest) = some rest) →
      pTokensMatch k1 k2 (String.mk ('P' :: p :: toks.foldr (· ++ ·) suffix)) =
        some (String.mk ['P', p], String.mk ((toks.take k1).getLastD []))) ∧
    (∀ (k1 k2 : Nat) (p : Char) (toks : List (List Char)),
      (∀ t ∈ toks, ∀ rest, parseIntRep (t ++ rest) = some rest) →
      toks.length < k1 + k2 →
      pTokensMatch k1 k2 (String.mk ('P' :: p :: toks.foldr (· ++ ·) [])) =
        none) ∧
    (∀ line, extract_endesa_power line = (none, none) ∨
      ∃ pt pa, extract_endesa_power line = (some pt, some pa)) ∧
    (∀ line, extract_total_power line = (none, none) ∨
      ∃ pt pa, extract_total_power line = (some pt, some pa)) ∧
    (∀ line, extract_nufri_power line = (none, none) ∨
      ∃ pt pa, extract_nufri_power line = (some pt, some pa)) := by
  refine ⟨?_, ?_, ?_, ?_, ?_, ?_, ?_, ?_⟩
  · intro p q toks suffix hp hq hlen h
    unfold endesaPxMatch
    dsimp only
    rw [if_pos (by simp [hp, hq]),
      parseRepsLast_concat_take parseCurRep 5 toks suffix []
        (le_of_eq hlen.symm) h,
      List.take_of_length_le (le_of_eq hlen)]
  · intro p q toks h hlen
    unfold endesaPxMatch
    dsimp only
    by_cases hc : ('P' = 'P' && px16 p && ' ' = ' ' && '1' = '1' &&
        '.' = '.' && '1' = '1' && '8' = '8' && '.' = '.' && px16 q) = true
    · rw [if_pos hc, parseRepsLast_short parseCurRep rfl toks 5 [] h hlen]
    · rw [if_neg hc]
  · intro pre l kw toks suffix hpv hlen h
    refine endesaPvScan_lift pre l ?_
    unfold endesaPvAt
    rw [hpv]
    dsimp only
    rw [parseRepsLast_concat_take parseCurRep 5 toks suffix []
      (le_of_eq hlen.symm) h]
    rfl
  · intro k1 k2 p toks suffix hp hlen h
    unfold pTokensMatch
    dsimp only
    rw [if_pos (by simp [hp]),
      parseRepsLast_concat_take parseIntRep k1 toks suffix []
        (by omega) h]
    dsimp only
    rw [parseRepsLast_concat_take parseIntRep k2 (toks.drop k1) suffix []
      (by rw [List.length_drop, hlen]; omega)
      (fun t ht rest => h t (List.mem_of_mem_drop ht) rest)]
  · intro k1 k2 p toks h hlen
    unfold pTokensMatch
    dsimp only
    by_cases hc : ('P' = 'P' && px16 p) = true
    · rw [if_pos hc]
      by_cases h1 : toks.length < k1
      · rw [parseRepsLast_short parseIntRep rfl toks k1 [] h h1]
      · rw [parseRepsLast_concat_take parseIntRep k1 toks [] []
          (by omega) h]
        dsimp only
        rw [show (toks.drop k1).foldr (· ++ ·) [] =
            (toks.drop k1).foldr (· ++ ·) [] from rfl,
          parseRepsLast_short parseIntRep rfl (toks.drop k1) k2 []
            (fun t ht rest => h t (List.mem_of_mem_drop ht) rest)
            (by rw [List.length_drop]; omega)]
    · rw [if_neg hc]
  · intro line
    unfold extract_endesa_power
    cases h1 : endesaPxMatch line with
    | some x =>
      obtain ⟨pt, pa⟩ := x
      exact Or.inr ⟨pt, pa, rfl⟩
    | none =>
      cases h2 : endesaPvScan line.data with
      | some x =>
        obtain ⟨kw, last⟩ := x
        exact Or.inr ⟨mapPv kw, last, rfl⟩
      | none => exact Or.inl rfl
  · intro line
    unfold extract_total_power
    cases h1 : totalPvMatch line with
    | some x =>
      obtain ⟨pt, pa⟩ := x
      exact Or.inr ⟨pt, pa, rfl⟩
    | none => exact Or.inl rfl
  · intro line
    unfold extract_nufri_power
    cases h1 : nufriPxMatch line with
    | some x =>
      obtain ⟨pt, pa⟩ := x
      exact Or.inr ⟨pt, pa, rfl⟩
    | none => exact Or.inl rfl

/-- Claim C8, witness: five well-formed tokens followed by extra text are
accepted, the capture being the fifth token. -/
theorem C8_witness :
    endesaPxMatch (String.mk ('P' :: '4' :: ' ' :: '1' :: '.' :: '1' ::
        '8' :: '.' :: '4' ::
        (List.replicate 5 [' ', '1', '2', '3', '4', ',', '0', '0']).foldr
          (· ++ ·) [' ', 'x'])) =
      some (String.mk ['P', '4'],
        String.mk ((List.replicate 5
          [' ', '1', '2', '3', '4', ',', '0', '0']).getLastD [])) :=
  C8_column_count_minima.1 '4' '4'
    (List.replicate 5 [' ', '1', '2', '3', '4', ',', '0', '0']) [' ', 'x']
    (by decide) (by decide) (by decide)
    (fun t ht rest => by rw [List.eq_of_mem_replicate ht]; rfl)

end LobeElectricity
